import Mathlib

set_option maxRecDepth 40000

/-
  Verification development for the nust-lang compiler front-end
  (parser, type/borrow checker, bytecode compiler).

  The definitions below are a shallow embedding of the C++ sources:
    src/include/parser/parser.h   (AST, Type, Span)
    src/src/parser/parser.cpp     (recursive-descent parser)
    src/src/type_checker.cpp      (type and borrow checker)
    src/src/compiler.cpp          (bytecode lowering)
    src/src/function_table.cpp    (function table)
    src/include/instruction.h     (opcodes, operand table)
    src/src/main.cpp              (.ns / .no output writers)

  Modelling conventions:
  * machine integers are Nat / Int (size_t operands are Nat; C++ `int`
    literal values are Int);
  * C++ exceptions (parser errors, compiler errors) are Except String;
  * the type checker can dereference a null Type::base_type inside
    is_assignable / is_compatible (undefined behavior in the C++); the
    checker is therefore embedded in Option, where `none` marks a run
    that crashes.  All other paths are total.
  * Program.items holds ASTNode pointers in the C++, but the parser only
    ever creates FunctionDecl items and every consumer filters with
    dynamic_cast<FunctionDecl>; the embedding uses List FunctionDecl.
  * The parser's Scope tree (enter_scope / exit_scope / declarations) is
    written by the parser but never read by the type checker or the
    compiler (each keeps its own tables), so it is omitted from the AST.
-/

namespace Nust

/-- Source span, byte offsets.  C++ field `end` is called `stop` here. -/
structure Span where
  start : Nat
  stop : Nat
deriving DecidableEq, Repr

/-- Type::Kind from parser.h. -/
inductive TKind where
  | I32 | Bool | Str | Ref | MutRef
deriving DecidableEq, Repr

/-- class Type: a kind, an optional base type (null for non-references in
well-formed data, but the checker also materializes null bases under
Ref/MutRef: see copy2 below), and a span. -/
inductive NType where
  | mk (kind : TKind) (base : Option NType) (span : Span)

def NType.kind : NType → TKind
  | .mk k _ _ => k

def NType.base : NType → Option NType
  | .mk _ b _ => b

def NType.span : NType → Span
  | .mk _ _ s => s

/-- Type::clone — the real deep copy. -/
def NType.clone : NType → NType := id

/-- The hand-rolled two-level copy the type checker uses everywhere
(e.g. type_checker.cpp:70-73, 165-168, 479-482): copies the kind and
span, copies the base's kind and span, and drops the base's own base. -/
def copy2 (t : NType) (outer : Span) : NType :=
  .mk t.kind (t.base.map fun b => .mk b.kind none b.span) outer

/-- BinaryExpr::Op. -/
inductive BinOp where
  | add | sub | mul | div
  | eq | ne | lt | gt | le | ge
  | and | or
  | assignment
deriving DecidableEq, Repr

/-- UnaryExpr::Op. -/
inductive UnOp where
  | neg | not
deriving DecidableEq, Repr

/-- Expression AST.  The mutable `type` slot and Identifier's mutable
`is_mut_binding` flag are modelled functionally: check_expression returns
the inferred type, and the flag is recomputed at its single read site
(the mutable-borrow case) from the same lookup that set it. -/
inductive Expr where
  | intLit (span : Span) (value : Int)
  | boolLit (span : Span) (value : Bool)
  | strLit (span : Span) (value : String)
  | ident (span : Span) (name : String)
  | binary (span : Span) (op : BinOp) (left right : Expr)
  | unary (span : Span) (op : UnOp) (operand : Expr)
  | borrow (span : Span) (is_mut : Bool) (operand : Expr)
  | call (span : Span) (callee : Expr) (args : List Expr)

def Expr.span : Expr → Span
  | .intLit s _ | .boolLit s _ | .strLit s _ | .ident s _
  | .binary s _ _ _ | .unary s _ _ | .borrow s _ _ | .call s _ _ => s

/-- Statement AST (scope back-links omitted; see header comment). -/
inductive Stmt where
  | letS (span : Span) (is_mut : Bool) (name : String) (ty : NType) (init : Expr)
  | exprS (span : Span) (e : Expr)
  | ifS (span : Span) (cond : Expr) (thenB : Stmt) (elseB : Option Stmt)
  | whileS (span : Span) (cond : Expr) (body : Stmt)
  | block (span : Span) (stmts : List Stmt)

def Stmt.span : Stmt → Span
  | .letS s _ _ _ _ | .exprS s _ | .ifS s _ _ _ | .whileS s _ _ | .block s _ => s

/-- FunctionDecl::Param. -/
structure Param where
  is_mut : Bool
  name : String
  ty : NType
  span : Span

/-- FunctionDecl. -/
structure FunctionDecl where
  span : Span
  name : String
  params : List Param
  return_type : NType
  body : Stmt

/-- Program (items are all FunctionDecls; see header comment). -/
structure Program where
  span : Span
  items : List FunctionDecl

/-! ## Type checker (src/src/type_checker.cpp) -/

/-- TypeChecker::VariableInfo. -/
structure VarInfo where
  ty : NType
  is_mut : Bool

/-- TypeChecker state: the scope stack `scopes_` (head = innermost, i.e.
the C++ vector's back) and the accumulated `errors_`.  Each frame is the
association list of one unordered_map (keys unique, guarded by
declare_variable). -/
structure TCState where
  scopes : List (List (String × VarInfo))
  errors : List String

/-- TypeChecker::error — formats and appends one message (line 489-494). -/
def tc_error (msg : String) (sp : Span) (st : TCState) : TCState :=
  { st with errors := st.errors ++
      ["Type error at " ++ toString sp.start ++ ":" ++ toString sp.stop ++ ": " ++ msg] }

def enter_scope (st : TCState) : TCState :=
  { st with scopes := [] :: st.scopes }

def exit_scope (st : TCState) : TCState :=
  { st with scopes := st.scopes.tail }

/-- TypeChecker::declare_variable (lines 461-473), including the
defensive push of a frame when the stack is empty. -/
def declare_variable (name : String) (ty : NType) (m : Bool) (st : TCState) :
    Bool × TCState :=
  let scopes := if st.scopes.isEmpty then [[]] else st.scopes
  match scopes with
  | [] => (false, st)
  | cur :: rest =>
    if cur.any (fun p => p.1 == name) then (false, { st with scopes := cur :: rest })
    else (true, { st with scopes := ((name, ⟨ty, m⟩) :: cur) :: rest })

def frame_find (frame : List (String × VarInfo)) (name : String) : Option VarInfo :=
  (frame.find? (fun p => p.1 == name)).map (fun p => p.2)

/-- TypeChecker::lookup_variable (lines 475-487): innermost frame first;
on a hit it returns a two-level copy of the stored type. -/
def lookup_variable (name : String) (st : TCState) : Option VarInfo :=
  (st.scopes.findSome? (fun frame => frame_find frame name)).map
    (fun info => { info with ty := copy2 info.ty info.ty.span })

/-- TypeChecker::is_assignable (lines 412-426).  `none` marks the C++
dereferencing a null base_type (undefined behavior). -/
def is_assignable : NType → NType → Option Bool
  | .mk tk tb _, .mk sk sb _ =>
    if tk = sk then
      if tk = .Ref ∨ tk = .MutRef then
        match tb, sb with
        | some tb2, some sb2 => is_assignable tb2 sb2
        | _, _ => none
      else some true
    else if tk = .Ref ∧ sk = .MutRef then
      match tb, sb with
      | some tb2, some sb2 => is_assignable tb2 sb2
      | _, _ => none
    else some false

/-- TypeChecker::is_compatible (lines 428-443). -/
def is_compatible : NType → NType → Option Bool
  | .mk lk lb _, .mk rk rb _ =>
    if lk = rk then
      if lk = .Ref ∨ lk = .MutRef then
        match lb, rb with
        | some lb2, some rb2 => is_compatible lb2 rb2
        | _, _ => none
      else some true
    else if (lk = .Ref ∧ rk = .MutRef) ∨ (lk = .MutRef ∧ rk = .Ref) then
      match lb, rb with
      | some lb2, some rb2 => is_compatible lb2 rb2
      | _, _ => none
    else some false

/-- One scope entry after the mutable-borrow marking loop
(type_checker.cpp:319-332): entries named `name` are wrapped in MutRef
over a two-level copy of their previous type, with the borrow
expression's span on the new node. -/
def mark_entry (name : String) (sp : Span) (p : String × VarInfo) : String × VarInfo :=
  if p.1 == name then
    (p.1, { p.2 with ty := .mk .MutRef (some (copy2 p.2.ty p.2.ty.span)) sp })
  else p

/-- The marking loop itself: every frame of the stack is visited. -/
def mark_borrowed (name : String) (sp : Span) (st : TCState) : TCState :=
  { st with scopes := st.scopes.map (fun frame => frame.map (mark_entry name sp)) }

/-- Requests of the type checker's recursive walk.  check_expression,
its Call-argument loop, check_statement and the Block statement loop are
mutually recursive in the C++; they are embedded as one fuel-indexed
function so that runs compute by kernel reduction.  Fuel only bounds the
recursion depth: a `none` from fuel exhaustion is indistinguishable from
a crash, and every theorem below is conditioned on a `some` result. -/
inductive TReq where
  | expr (e : Expr)
  | args (cname : String) (sp : Span) (i : Nat) (argl : List Expr) (params : List Param)
  | stmt (s : Stmt)
  | stmts (l : List Stmt)

/-- The combined walk.  `.expr` is TypeChecker::check_expression
(type_checker.cpp:135-410), returning (success, the inferred_type slot,
state); `.args` is its Call-argument loop (384-399); `.stmt` is
check_statement (56-133) and `.stmts` the Block loop (120-130), both
with `none` in the (unused) type component. -/
def check_fn (prog : List FunctionDecl) :
    Nat → TReq → TCState → Option (Bool × Option NType × TCState)
  | 0, _, _ => none
  | fuel + 1, .expr e, st =>
    match e with
    | .intLit sp _ => some (true, some (.mk .I32 none sp), st)
    | .boolLit sp _ => some (true, some (.mk .Bool none sp), st)
    | .strLit sp _ => some (true, some (.mk .Str none sp), st)
    | .ident sp name =>
      if prog.any (fun f => f.name == name) then
        some (true, none, st)
      else
        match lookup_variable name st with
        | none => some (false, none, tc_error ("Undefined variable: " ++ name) sp st)
        | some info => some (true, some (copy2 info.ty sp), st)
    | .binary sp op l r =>
      if op = .assignment then
        match l with
        | .ident _ name =>
          match lookup_variable name st with
          | none => some (false, none, tc_error ("Undefined variable: " ++ name) sp st)
          | some info =>
            if info.ty.kind = .MutRef then
              some (false, none,
                tc_error ("Cannot use variable while mutably borrowed: " ++ name) sp st)
            else if !info.is_mut then
              some (false, none,
                tc_error ("Cannot assign to immutable variable: " ++ name) sp st)
            else do
              let (ok, rty, st1) ← check_fn prog fuel (.expr r) st
              if !ok then some (false, none, st1)
              else
                match rty with
                | none => none
                | some rt => do
                  let ok2 ← is_assignable info.ty rt
                  if !ok2 then
                    some (false, none, tc_error "Type mismatch in assignment" sp st1)
                  else some (true, some rt.clone, st1)
        | _ =>
          some (false, none,
            tc_error "Left side of assignment must be an identifier" sp st)
      else do
        let (okL, lty, st1) ← check_fn prog fuel (.expr l) st
        if !okL then some (false, none, st1) else do
        let (okR, rty, st2) ← check_fn prog fuel (.expr r) st1
        if !okR then some (false, none, st2) else
        match lty, rty with
        | some lt, some rt =>
          match op with
          | .add | .sub | .mul | .div =>
            if lt.kind ≠ .I32 ∨ rt.kind ≠ .I32 then
              some (false, none,
                tc_error "Arithmetic operations require integer operands" sp st2)
            else some (true, some (.mk .I32 none sp), st2)
          | .eq | .ne | .lt | .gt | .le | .ge => do
            let c ← is_compatible lt rt
            if !c then
              some (false, none, tc_error "Incompatible types in comparison" sp st2)
            else some (true, some (.mk .Bool none sp), st2)
          | .and | .or =>
            if lt.kind ≠ .Bool ∨ rt.kind ≠ .Bool then
              some (false, none,
                tc_error "Logical operations require boolean operands" sp st2)
            else some (true, some (.mk .Bool none sp), st2)
          | .assignment => some (true, none, st2)
        | _, _ =>
          some (false, none, tc_error "Invalid operands in binary expression" sp st2)
    | .unary sp op operand => do
      let (ok, oty, st1) ← check_fn prog fuel (.expr operand) st
      if !ok then some (false, none, st1) else
      match oty with
      | none => some (false, none, tc_error "Invalid operand in unary expression" sp st1)
      | some ot =>
        match op with
        | .neg =>
          if ot.kind ≠ .I32 then
            some (false, none, tc_error "Negation requires integer operand" sp st1)
          else some (true, some (.mk .I32 none sp), st1)
        | .not =>
          if ot.kind ≠ .Bool then
            some (false, none, tc_error "Logical not requires boolean operand" sp st1)
          else some (true, some (.mk .Bool none sp), st1)
    | .borrow sp m operand => do
      let (ok, oty, st1) ← check_fn prog fuel (.expr operand) st
      if !ok then some (false, none, st1) else
      match oty with
      | none => some (false, none, tc_error "Invalid operand in borrow expression" sp st1)
      | some ot =>
        let step : Bool × TCState :=
          if m then
            match operand with
            | .ident _ iname =>
              match lookup_variable iname st1 with
              | none => (false, tc_error "Cannot borrow immutable variable as mutable" sp st1)
              | some info =>
                if !info.is_mut then
                  (false, tc_error "Cannot borrow immutable variable as mutable" sp st1)
                else if info.ty.kind = .MutRef then
                  (false, tc_error ("Variable already mutably borrowed: " ++ iname) sp st1)
                else (true, mark_borrowed iname sp st1)
            | _ => (true, st1)
          else (true, st1)
        match step with
        | (false, st2) => some (false, none, st2)
        | (true, st2) =>
          some (true,
            some (.mk (if m then .MutRef else .Ref) (some (copy2 ot ot.span)) sp), st2)
    | .call sp callee args => do
      let (ok, _cty, st1) ← check_fn prog fuel (.expr callee) st
      if !ok then some (false, none, st1) else
      match callee with
      | .ident _ cname =>
        match prog.find? (fun f => f.name == cname) with
        | none => some (false, none, tc_error ("Undefined function: " ++ cname) sp st1)
        | some fdecl =>
          if args.length ≠ fdecl.params.length then
            some (false, none,
              tc_error ("Wrong number of arguments for function " ++ cname) sp st1)
          else do
            let (ok2, _, st2) ← check_fn prog fuel (.args cname sp 0 args fdecl.params) st1
            if !ok2 then some (false, none, st2)
            else some (true, some (copy2 fdecl.return_type sp), st2)
      | _ => some (false, none, tc_error "Function call requires a function name" sp st1)
  | fuel + 1, .args cname sp i argl params, st =>
    match argl, params with
    | [], _ => some (true, none, st)
    | a :: rest, p :: ps => do
      let (ok, aty, st1) ← check_fn prog fuel (.expr a) st
      if !ok then some (false, none, st1) else
      match aty with
      | none => some (false, none, tc_error "Invalid argument in function call" sp st1)
      | some at2 => do
        let ok2 ← is_assignable p.ty at2
        if !ok2 then
          some (false, none,
            tc_error ("Type mismatch in argument " ++ toString (i + 1) ++
              " of function " ++ cname) a.span st1)
        else check_fn prog fuel (.args cname sp (i + 1) rest ps) st1
    | _ :: _, [] => some (true, none, st)
  | fuel + 1, .stmt s, st =>
    match s with
    | .letS sp m name ty init => do
      let (ok, ity, st1) ← check_fn prog fuel (.expr init) st
      if !ok then some (false, none, st1) else
      match ity with
      | none => none
      | some ity2 => do
        let ok2 ← is_assignable ty ity2
        if !ok2 then some (false, none, tc_error "Type mismatch in let binding" sp st1)
        else
          let (ok3, st2) := declare_variable name (copy2 ty ty.span) m st1
          if !ok3 then
            some (false, none, tc_error ("Duplicate variable name: " ++ name) sp st2)
          else some (true, none, st2)
    | .exprS _ e => do
      let (ok, _, st1) ← check_fn prog fuel (.expr e) st
      some (ok, none, st1)
    | .ifS _ cond thenB elseB => do
      let (ok, cty, st1) ← check_fn prog fuel (.expr cond) st
      if !ok then some (false, none, st1) else
      if (match cty with | some t => decide (t.kind ≠ TKind.Bool) | none => true) then
        some (false, none, tc_error "If condition must be boolean" cond.span st1)
      else do
        let (thenOk, _, st2) ← check_fn prog fuel (.stmt thenB) (enter_scope st1)
        let st3 := exit_scope st2
        match elseB with
        | some els => do
          let (elseOk, _, st4) ← check_fn prog fuel (.stmt els) (enter_scope st3)
          some (thenOk && elseOk, none, exit_scope st4)
        | none => some (thenOk, none, st3)
    | .whileS _ cond body => do
      let (ok, cty, st1) ← check_fn prog fuel (.expr cond) st
      if !ok then some (false, none, st1) else
      if (match cty with | some t => decide (t.kind ≠ TKind.Bool) | none => true) then
        some (false, none, tc_error "While condition must be boolean" cond.span st1)
      else do
        let (bOk, _, st2) ← check_fn prog fuel (.stmt body) (enter_scope st1)
        some (bOk, none, exit_scope st2)
    | .block _ stmts => do
      let (ok, _, st1) ← check_fn prog fuel (.stmts stmts) (enter_scope st)
      some (ok, none, exit_scope st1)
  | fuel + 1, .stmts l, st =>
    match l with
    | [] => some (true, none, st)
    | s :: rest => do
      let (ok, _, st1) ← check_fn prog fuel (.stmt s) st
      if ok then check_fn prog fuel (.stmts rest) st1 else some (false, none, st1)

/-- TypeChecker::check_expression, at a given fuel. -/
def check_expression (prog : List FunctionDecl) (fuel : Nat) (e : Expr) (st : TCState) :
    Option (Bool × Option NType × TCState) :=
  check_fn prog fuel (.expr e) st

/-- TypeChecker::check_statement, at a given fuel. -/
def check_statement (prog : List FunctionDecl) (fuel : Nat) (s : Stmt) (st : TCState) :
    Option (Bool × TCState) :=
  (check_fn prog fuel (.stmt s) st).map (fun r => (r.1, r.2.2))

/-- The Block statement loop, at a given fuel. -/
def check_statements (prog : List FunctionDecl) (fuel : Nat) (l : List Stmt) (st : TCState) :
    Option (Bool × TCState) :=
  (check_fn prog fuel (.stmts l) st).map (fun r => (r.1, r.2.2))

/-- The parameter-declaration loop of check_function (lines 24-33). -/
def check_params : List Param → TCState → Bool × TCState
  | [], st => (true, st)
  | p :: ps, st =>
    let (ok, st1) := declare_variable p.name (copy2 p.ty p.ty.span) p.is_mut st
    if ok then check_params ps st1
    else (false, tc_error ("Duplicate parameter name: " ++ p.name) p.span st1)

/-- The trailing-expression return-type check of check_function
(lines 38-50); it re-runs check_expression on the block-final ExprStmt. -/
def check_return (prog : List FunctionDecl) (fuel : Nat) (f : FunctionDecl) (st : TCState) :
    Option (Bool × TCState) :=
  match f.body with
  | .block _ stmts =>
    match stmts.getLast? with
    | some (.exprS esp e) => do
      let (ok, ety, st1) ← check_expression prog fuel e st
      if !ok then some (false, st1)
      else
        match ety with
        | none => none
        | some t => do
          let ok2 ← is_assignable f.return_type t
          if !ok2 then some (false, tc_error "Function return type mismatch" esp st1)
          else some (true, st1)
    | _ => some (true, st)
  | _ => some (true, st)

/-- TypeChecker::check_function (lines 20-54).  Note that on a duplicate
parameter the scope is not exited (the C++ returns early). -/
def check_function (prog : List FunctionDecl) (fuel : Nat) (f : FunctionDecl) (st : TCState) :
    Option (Bool × TCState) :=
  let st0 := enter_scope st
  let (pok, st1) := check_params f.params st0
  if !pok then some (false, st1)
  else do
    let (bodyOk, st2) ← check_statement prog fuel f.body st1
    let (retOk, st3) ← check_return prog fuel f st2
    some (bodyOk && retOk, exit_scope st3)

/-- The function loop of check_program (lines 10-16): returns false at
the first failing function, without visiting the rest. -/
def check_functions (prog : List FunctionDecl) (fuel : Nat) :
    List FunctionDecl → TCState → Option (Bool × TCState)
  | [], st => some (true, st)
  | f :: rest, st => do
    let (ok, st1) ← check_function prog fuel f st
    if ok then check_functions prog fuel rest st1 else some (false, st1)

def TCState.has_errors (st : TCState) : Bool := !st.errors.isEmpty

/-- TypeChecker::check_program (lines 8-18), at a given fuel. -/
def check_program (fuel : Nat) (p : Program) : Option (Bool × TCState) := do
  let (ok, st) ← check_functions p.items fuel p.items { scopes := [], errors := [] }
  some (if ok then !st.has_errors else false, st)

/-! ## Instructions (src/include/instruction.h) -/

/-- enum class Opcode, in declaration order. -/
inductive Opcode where
  | PUSH_I32 | PUSH_BOOL | PUSH_STR | POP | DUP | SWAP
  | LOAD | STORE | LOAD_REF | STORE_REF
  | ADD_I32 | SUB_I32 | MUL_I32 | DIV_I32 | NEG_I32
  | EQ_I32 | NE_I32 | LT_I32 | GT_I32 | LE_I32 | GE_I32
  | AND | OR | NOT
  | JMP | JMP_IF | JMP_IF_NOT | CALL | RET | RET_VAL
  | BORROW | BORROW_MUT | DEREF | DEREF_MUT
deriving DecidableEq, Repr

/-- opcode_to_string (instruction.h:61-114). -/
def opcode_to_string : Opcode → String
  | .PUSH_I32 => "PUSH_I32"
  | .PUSH_BOOL => "PUSH_BOOL"
  | .PUSH_STR => "PUSH_STR"
  | .POP => "POP"
  | .DUP => "DUP"
  | .SWAP => "SWAP"
  | .LOAD => "LOAD"
  | .STORE => "STORE"
  | .LOAD_REF => "LOAD_REF"
  | .STORE_REF => "STORE_REF"
  | .ADD_I32 => "ADD_I32"
  | .SUB_I32 => "SUB_I32"
  | .MUL_I32 => "MUL_I32"
  | .DIV_I32 => "DIV_I32"
  | .NEG_I32 => "NEG_I32"
  | .EQ_I32 => "EQ_I32"
  | .NE_I32 => "NE_I32"
  | .LT_I32 => "LT_I32"
  | .GT_I32 => "GT_I32"
  | .LE_I32 => "LE_I32"
  | .GE_I32 => "GE_I32"
  | .AND => "AND"
  | .OR => "OR"
  | .NOT => "NOT"
  | .JMP => "JMP"
  | .JMP_IF => "JMP_IF"
  | .JMP_IF_NOT => "JMP_IF_NOT"
  | .CALL => "CALL"
  | .RET => "RET"
  | .RET_VAL => "RET_VAL"
  | .BORROW => "BORROW"
  | .BORROW_MUT => "BORROW_MUT"
  | .DEREF => "DEREF"
  | .DEREF_MUT => "DEREF_MUT"

/-- The numeric enum value (static_cast<uint8_t>(opcode)): position in
declaration order. -/
def opcode_byte : Opcode → Nat
  | .PUSH_I32 => 0
  | .PUSH_BOOL => 1
  | .PUSH_STR => 2
  | .POP => 3
  | .DUP => 4
  | .SWAP => 5
  | .LOAD => 6
  | .STORE => 7
  | .LOAD_REF => 8
  | .STORE_REF => 9
  | .ADD_I32 => 10
  | .SUB_I32 => 11
  | .MUL_I32 => 12
  | .DIV_I32 => 13
  | .NEG_I32 => 14
  | .EQ_I32 => 15
  | .NE_I32 => 16
  | .LT_I32 => 17
  | .GT_I32 => 18
  | .LE_I32 => 19
  | .GE_I32 => 20
  | .AND => 21
  | .OR => 22
  | .NOT => 23
  | .JMP => 24
  | .JMP_IF => 25
  | .JMP_IF_NOT => 26
  | .CALL => 27
  | .RET => 28
  | .RET_VAL => 29
  | .BORROW => 30
  | .BORROW_MUT => 31
  | .DEREF => 32
  | .DEREF_MUT => 33

/-- Instruction::has_operand (instruction.h:125-141), on the opcode. -/
def Opcode.has_operand : Opcode → Bool
  | .PUSH_I32 | .PUSH_BOOL | .PUSH_STR
  | .LOAD | .STORE | .LOAD_REF
  | .JMP | .JMP_IF | .JMP_IF_NOT | .CALL => true
  | _ => false

/-- struct Instruction.  The one-argument C++ constructor zeroes the
operand; every operand-less emission below passes 0 explicitly. -/
structure Instruction where
  opcode : Opcode
  operand : Nat
deriving DecidableEq, Repr

def Instruction.has_operand (i : Instruction) : Bool := i.opcode.has_operand

/-! ## Function table (src/src/function_table.cpp) -/

structure FunctionInfo where
  entry_point : Nat
  num_params : Nat
  num_locals : Nat
  return_type : NType
  param_types : List NType
  name : String

/-- FunctionTable: the functions vector plus name_to_index map (an
association list; insert-or-assign order is irrelevant to lookups). -/
structure FunctionTable where
  functions : List FunctionInfo
  name_to_index : List (String × Nat)

/-- unordered_map insert-or-assign. -/
def assoc_set (l : List (String × Nat)) (k : String) (v : Nat) : List (String × Nat) :=
  if l.any (fun p => p.1 == k) then
    l.map (fun p => if p.1 == k then (k, v) else p)
  else l ++ [(k, v)]

/-- FunctionTable::add_function (function_table.cpp:8-25). -/
def add_function (f : FunctionDecl) (entry : Nat) (t : FunctionTable) : FunctionTable :=
  let info : FunctionInfo :=
    ⟨entry, f.params.length, 0, f.return_type.clone, f.params.map (fun p => p.ty.clone), f.name⟩
  { functions := t.functions ++ [info],
    name_to_index := assoc_set t.name_to_index f.name t.functions.length }

/-- FunctionTable::get_function_index (function_table.cpp:34-40). -/
def ft_get_function_index (name : String) (t : FunctionTable) : Except String Nat :=
  match t.name_to_index.find? (fun p => p.1 == name) with
  | some p => pure p.2
  | none => throw ("Function not found: " ++ name)

/-- get_function + const_cast field update (compiler.cpp:32-34, 60-62). -/
def table_update (t : FunctionTable) (idx : Nat) (upd : FunctionInfo → FunctionInfo) :
    Except String FunctionTable :=
  match t.functions.get? idx with
  | none => throw "Invalid function index"
  | some info => pure { t with functions := t.functions.set idx (upd info) }

/-! ## Compiler (src/src/compiler.cpp) -/

structure CState where
  instructions : List Instruction
  string_constants : List String
  local_vars : List (String × Nat)
  next_local_index : Nat
  function_table : FunctionTable

/-- Compiler::emit. -/
def emit (i : Instruction) (st : CState) : CState :=
  { st with instructions := st.instructions ++ [i] }

/-- instructions[idx].operand = v (the forward-patching writes). -/
def set_operand_list : List Instruction → Nat → Nat → List Instruction
  | [], _, _ => []
  | ins :: rest, 0, v => { ins with operand := v } :: rest
  | ins :: rest, n + 1, v => ins :: set_operand_list rest n v

def set_operand (st : CState) (idx v : Nat) : CState :=
  { st with instructions := set_operand_list st.instructions idx v }

/-- Compiler::get_local_index (compiler.cpp:289-295). -/
def get_local_index (name : String) (st : CState) : Except String Nat :=
  match st.local_vars.find? (fun p => p.1 == name) with
  | some p => pure p.2
  | none => throw ("Undefined variable: " ++ name)

/-- static_cast<size_t>(int v) on a 64-bit host: value mod 2^64. -/
def int_operand (v : Int) : Nat := (v % (2 ^ 64)).toNat

/-- Requests of the compiler's recursive walk (compile_expression with
its argument loop, compile_statement with the block loop), embedded as
one fuel-indexed function for the same reason as check_fn. -/
inductive CReq where
  | expr (e : Expr)
  | argsRev (l : List Expr)
  | stmt (s : Stmt)
  | stmts (l : List Stmt)

/-- The combined walk.  `.expr` is Compiler::compile_expression
(compiler.cpp:95-186) together with compile_identifier, compile_call and
compile_borrow; `.argsRev` is the rbegin..rend loop of compile_call
(the later arguments are compiled first); `.stmt` is compile_statement
(65-79) with compile_let (81-93), compile_if (220-245) and compile_while
(247-266) inlined; `.stmts` is compile_block (268-272). -/
def compile_fn : Nat → CReq → CState → Except String CState
  | 0, _, _ => throw "compiler out of fuel"
  | fuel + 1, .expr e, st =>
    match e with
    | .binary _ .assignment l r => do
      let st1 ← compile_fn fuel (.expr r) st
      match l with
      | .ident _ name => do
        let index ← get_local_index name st1
        pure (emit ⟨.LOAD, index⟩ (emit ⟨.STORE, index⟩ st1))
      | _ => throw "Assignment target must be an identifier"
    | .binary _ op l r => do
      let st1 ← compile_fn fuel (.expr l) st
      let st2 ← compile_fn fuel (.expr r) st1
      match op with
      | .add => pure (emit ⟨.ADD_I32, 0⟩ st2)
      | .sub => pure (emit ⟨.SUB_I32, 0⟩ st2)
      | .mul => pure (emit ⟨.MUL_I32, 0⟩ st2)
      | .div => pure (emit ⟨.DIV_I32, 0⟩ st2)
      | .eq => pure (emit ⟨.EQ_I32, 0⟩ st2)
      | .ne => pure (emit ⟨.NE_I32, 0⟩ st2)
      | .lt => pure (emit ⟨.LT_I32, 0⟩ st2)
      | .gt => pure (emit ⟨.GT_I32, 0⟩ st2)
      | .le => pure (emit ⟨.LE_I32, 0⟩ st2)
      | .ge => pure (emit ⟨.GE_I32, 0⟩ st2)
      | .and => pure (emit ⟨.AND, 0⟩ st2)
      | .or => pure (emit ⟨.OR, 0⟩ st2)
      | .assignment => throw "Unknown binary operator"
    | .unary _ op operand => do
      let st1 ← compile_fn fuel (.expr operand) st
      match op with
      | .neg => pure (emit ⟨.NEG_I32, 0⟩ st1)
      | .not => pure (emit ⟨.NOT, 0⟩ st1)
    | .intLit _ v => pure (emit ⟨.PUSH_I32, int_operand v⟩ st)
    | .boolLit _ b => pure (emit ⟨.PUSH_BOOL, if b then 1 else 0⟩ st)
    | .strLit _ sv =>
      let index := st.string_constants.length
      pure (emit ⟨.PUSH_STR, index⟩
        { st with string_constants := st.string_constants ++ [sv] })
    | .ident _ name => do
      let index ← get_local_index name st
      pure (emit ⟨.LOAD, index⟩ st)
    | .call _ callee args => do
      let st1 ← compile_fn fuel (.argsRev args) st
      match callee with
      | .ident _ cname => do
        let func_index ← ft_get_function_index cname st1.function_table
        pure (emit ⟨.CALL, func_index⟩ st1)
      | _ => throw "Function callee must be an identifier"
    | .borrow _ m operand => do
      let st1 ← compile_fn fuel (.expr operand) st
      pure (emit ⟨(if m then .BORROW_MUT else .BORROW), 0⟩ st1)
  | fuel + 1, .argsRev l, st =>
    match l with
    | [] => pure st
    | a :: rest => do
      let st1 ← compile_fn fuel (.argsRev rest) st
      compile_fn fuel (.expr a) st1
  | fuel + 1, .stmt s, st =>
    match s with
    | .letS _ _ name _ init => do
      let st1 ← compile_fn fuel (.expr init) st
      let st2 :=
        if st1.local_vars.any (fun pr => pr.1 == name) then st1
        else { st1 with local_vars := assoc_set st1.local_vars name st1.next_local_index,
                        next_local_index := st1.next_local_index + 1 }
      let index ← get_local_index name st2
      pure (emit ⟨.STORE, index⟩ st2)
    | .ifS _ cond thenB elseB => do
      let st1 ← compile_fn fuel (.expr cond) st
      let else_jump := st1.instructions.length
      let st2 := emit ⟨.JMP_IF_NOT, 0⟩ st1
      let st3 ← compile_fn fuel (.stmt thenB) st2
      match elseB with
      | some els =>
        let end_jump := st3.instructions.length
        let st4 := emit ⟨.JMP, 0⟩ st3
        let st5 := set_operand st4 else_jump st4.instructions.length
        let st6 ← compile_fn fuel (.stmt els) st5
        pure (set_operand st6 end_jump st6.instructions.length)
      | none => pure (set_operand st3 else_jump st3.instructions.length)
    | .whileS _ cond body => do
      let loop_start := st.instructions.length
      let st1 ← compile_fn fuel (.expr cond) st
      let exit_jump := st1.instructions.length
      let st2 := emit ⟨.JMP_IF_NOT, 0⟩ st1
      let st3 ← compile_fn fuel (.stmt body) st2
      let st4 := emit ⟨.JMP, loop_start⟩ st3
      pure (set_operand st4 exit_jump st4.instructions.length)
    | .block _ stmts => compile_fn fuel (.stmts stmts) st
    | .exprS _ e => do
      let st1 ← compile_fn fuel (.expr e) st
      pure (emit ⟨.POP, 0⟩ st1)
  | fuel + 1, .stmts l, st =>
    match l with
    | [] => pure st
    | sHead :: rest => do
      let st1 ← compile_fn fuel (.stmt sHead) st
      compile_fn fuel (.stmts rest) st1

/-- Compiler::compile_expression, at a given fuel. -/
def compile_expression (fuel : Nat) (e : Expr) (st : CState) : Except String CState :=
  compile_fn fuel (.expr e) st

/-- Compiler::compile_statement, at a given fuel. -/
def compile_statement (fuel : Nat) (s : Stmt) (st : CState) : Except String CState :=
  compile_fn fuel (.stmt s) st

/-- The parameter loop of compile_function (compiler.cpp:47-49):
local_vars[param.name] = next_local_index++. -/
def compile_params : List Param → CState → CState
  | [], st => st
  | p :: ps, st =>
    compile_params ps
      { st with local_vars := assoc_set st.local_vars p.name st.next_local_index,
                next_local_index := st.next_local_index + 1 }

/-- Compiler::compile_function (compiler.cpp:41-63). -/
def compile_function (fuel : Nat) (f : FunctionDecl) (st : CState) : Except String CState := do
  let st1 := compile_params f.params { st with local_vars := [], next_local_index := 0 }
  let st2 ← compile_statement fuel f.body st1
  let st3 :=
    match st2.instructions.getLast? with
    | some ins => if ins.opcode = Opcode.RET_VAL then st2 else emit ⟨.RET, 0⟩ st2
    | none => emit ⟨.RET, 0⟩ st2
  let idx ← ft_get_function_index f.name st3.function_table
  let t2 ← table_update st3.function_table idx
    (fun info => { info with num_locals := st3.next_local_index })
  pure { st3 with function_table := t2 }

/-- Pass 1 of Compiler::compile (compiler.cpp:18-23): register every
function with a placeholder entry point 0. -/
def pass1 : List FunctionDecl → FunctionTable → FunctionTable
  | [], t => t
  | f :: rest, t => pass1 rest (add_function f 0 t)

/-- Pass 2 of Compiler::compile (compiler.cpp:25-36): record the entry
point, compile, then patch the table entry. -/
def compile_functions (fuel : Nat) : List FunctionDecl → CState → Except String CState
  | [], st => pure st
  | f :: rest, st => do
    let entry_point := st.instructions.length
    let st1 ← compile_function fuel f st
    let idx ← ft_get_function_index f.name st1.function_table
    let t2 ← table_update st1.function_table idx
      (fun info => { info with entry_point := entry_point })
    compile_functions fuel rest { st1 with function_table := t2 }

/-- Compiler::compile (compiler.cpp:10-39), at a given fuel. -/
def compile (fuel : Nat) (p : Program) : Except String CState := do
  let t := pass1 p.items { functions := [], name_to_index := [] }
  compile_functions fuel p.items
    { instructions := [], string_constants := [], local_vars := [],
      next_local_index := 0, function_table := t }

/-! ## Parser (src/src/parser/parser.cpp)

The C++ parser is a set of mutually recursive methods over a member
`pos` into the fixed source buffer.  The embedding passes `pos`
explicitly and threads a fuel argument through the mutually recursive
parse functions (the C++ recursion depth is bounded by the input, and
`parse_fuel` below is always sufficient); running out of fuel is the
distinct failure "parser out of fuel", which no claim relies on. -/

/-- std::isspace in the C locale, plus the explicit checks of
skip_whitespace. -/
def is_space_char (c : Char) : Bool :=
  c == ' ' || c == '\t' || c == '\n' || c == Char.ofNat 11 || c == Char.ofNat 12 || c == '\r'

def is_digit_char (c : Char) : Bool := '0' ≤ c && c ≤ '9'

def is_alpha_char (c : Char) : Bool :=
  ('a' ≤ c && c ≤ 'z') || ('A' ≤ c && c ≤ 'Z')

def is_alnum_char (c : Char) : Bool := is_alpha_char c || is_digit_char c

def is_alnum_or_underscore (c : Char) : Bool := is_alnum_char c || c == '_'

/-- source[pos]; std::string::operator[] yields the null character at
index size(). -/
def char_at (src : List Char) (p : Nat) : Char := src.getD p (Char.ofNat 0)

/-- Parser::at_end. -/
def at_end (src : List Char) (p : Nat) : Bool := decide (src.length ≤ p)

/-- source.compare(pos, expected.length(), expected) == 0. -/
def match_at (src : List Char) (p : Nat) (pat : String) : Bool :=
  (src.drop p).take pat.length == pat.data

/-- Parser::match — on success the position advances past the pattern. -/
def pmatch (src : List Char) (p : Nat) (pat : String) : Bool × Nat :=
  if match_at src p pat then (true, p + pat.length) else (false, p)

/-- Parser::peek. -/
def ppeek (src : List Char) (p : Nat) (pat : String) : Bool := match_at src p pat

/-- Parser::error — the formatted parse failure. -/
def parse_error_msg (p : Nat) (msg : String) : String :=
  "Parse error at position " ++ toString p ++ ": " ++ msg

/-- A single-quote character (kept out of string literals). -/
def squote : String := String.mk [Char.ofNat 39]

/-- Parser::expect. -/
def pexpect (src : List Char) (p : Nat) (pat : String) : Except String Nat :=
  if match_at src p pat then pure (p + pat.length)
  else throw (parse_error_msg p ("Expected " ++ squote ++ pat ++ squote))

/-- Parser::skip_whitespace (parser.cpp:597-617), as a step-counted
loop; the internal fuel 2*(length+2) always exceeds the number of loop
steps (each step advances the position or leaves a comment). -/
def skip_ws_core (src : List Char) : Nat → Bool → Nat → Nat
  | 0, _, p => p
  | fuel + 1, inComment, p =>
    if inComment then
      if p < src.length then
        if char_at src p != '\n' && char_at src p != '\r' then
          skip_ws_core src fuel true (p + 1)
        else skip_ws_core src fuel false p
      else p
    else if p < src.length then
      if is_space_char (char_at src p) then skip_ws_core src fuel false (p + 1)
      else if decide (p + 1 < src.length) && char_at src p == '/' && char_at src (p + 1) == '/' then
        skip_ws_core src fuel true (p + 2)
      else p
    else p

def skip_ws (src : List Char) (p : Nat) : Nat :=
  skip_ws_core src (2 * (src.length + 2)) false p

/-- Parser::consume_identifier (parser.cpp:546-559). -/
def consume_identifier (src : List Char) (p : Nat) : Except String (String × Nat) :=
  if is_alpha_char (char_at src p) || char_at src p == '_' then
    let tok := (src.drop p).takeWhile is_alnum_or_underscore
    pure (String.mk tok, p + tok.length)
  else throw (parse_error_msg p "Expected identifier")

/-- Parser::consume_integer (parser.cpp:561-569); std::stoi raises
out_of_range above INT_MAX (no sign is ever consumed here). -/
def consume_integer (src : List Char) (p : Nat) : Except String (Int × Nat) :=
  let digits := (src.drop p).takeWhile is_digit_char
  let v : Nat := digits.foldl (fun a c => a * 10 + (c.toNat - 48)) 0
  if digits.isEmpty then throw "stoi: invalid argument"
  else if 2147483647 < v then throw "stoi: out of range"
  else pure ((v : Int), p + digits.length)

/-- The scan loop of consume_string (parser.cpp:577-590): returns the
position of the closing quote; backslash skips the next character. -/
def string_scan (src : List Char) : Nat → Nat → Except String Nat
  | 0, p => throw (parse_error_msg p "Unterminated string")
  | fuel + 1, p =>
    if p < src.length then
      if char_at src p == Char.ofNat 34 then pure p
      else if char_at src p == Char.ofNat 92 then
        if src.length ≤ p + 1 then throw (parse_error_msg (p + 1) "Unterminated string")
        else string_scan src fuel (p + 2)
      else string_scan src fuel (p + 1)
    else throw (parse_error_msg p "Unterminated string")

/-- Parser::consume_string (parser.cpp:571-595). -/
def consume_string (src : List Char) (p : Nat) : Except String (String × Nat) :=
  if char_at src p != Char.ofNat 34 then throw (parse_error_msg p "Expected string")
  else do
    let q ← string_scan src (src.length + 2) (p + 1)
    pure (String.mk ((src.drop (p + 1)).take (q - (p + 1))), q + 1)

/-- Parser::parse_type (parser.cpp:103-123); fuel bounds the reference
nesting depth. -/
def parse_type (src : List Char) : Nat → Nat → Except String (NType × Nat)
  | 0, _ => throw "parser out of fuel"
  | fuel + 1, p =>
    let start := p
    let (mamp, p1) := pmatch src p "&"
    if mamp then
      let (im, p2) := pmatch src p1 "mut"
      let p3 := if im then skip_ws src p2 else p2
      do
        let (inner, p4) ← parse_type src fuel p3
        pure (.mk (if im then .MutRef else .Ref) (some inner) ⟨start, p4⟩, p4)
    else
      let (mi, pa) := pmatch src p "i32"
      if mi then pure (.mk .I32 none ⟨start, pa⟩, pa)
      else
        let (mb, pb) := pmatch src p "bool"
        if mb then pure (.mk .Bool none ⟨start, pb⟩, pb)
        else
          let (ms, pc) := pmatch src p "str"
          if ms then pure (.mk .Str none ⟨start, pc⟩, pc)
          else throw (parse_error_msg p "Expected type")

/-- The do-while body of Parser::parse_params (parser.cpp:76-98). -/
def parse_params_loop (src : List Char) : Nat → Nat → Except String (List Param × Nat)
  | 0, _ => throw "parser out of fuel"
  | fuel + 1, p => do
    let param_start := p
    let p1 := skip_ws src p
    let (im, p2) := pmatch src p1 "mut"
    let p3 := if im then skip_ws src p2 else p2
    let (name, p4) ← consume_identifier src p3
    let p5 := skip_ws src p4
    let p6 ← pexpect src p5 ":"
    let p7 := skip_ws src p6
    let (ty, p8) ← parse_type src fuel p7
    let prm : Param := ⟨im, name, ty, ⟨param_start, p8⟩⟩
    let p9 := skip_ws src p8
    let (mc, p10) := pmatch src p9 ","
    if mc then do
      let (rest, p11) ← parse_params_loop src fuel p10
      pure (prm :: rest, p11)
    else pure ([prm], p10)

/-- Parser::parse_params (parser.cpp:70-101). -/
def parse_params (src : List Char) (fuel p : Nat) : Except String (List Param × Nat) :=
  let p1 := skip_ws src p
  if ppeek src p1 ")" then pure ([], p1)
  else parse_params_loop src fuel p1

def Expr.is_ident : Expr → Bool
  | .ident _ _ => true
  | _ => false

/-- Result of one parser nonterminal. -/
inductive PRes where
  | exprR (e : Expr) (p : Nat)
  | argsR (l : List Expr) (p : Nat)
  | stmtR (s : Stmt) (p : Nat)
  | stmtsR (l : List Stmt) (p : Nat)

def PRes.as_expr : PRes → Except String (Expr × Nat)
  | .exprR e p => pure (e, p)
  | _ => throw "parser internal error"

def PRes.as_args : PRes → Except String (List Expr × Nat)
  | .argsR l p => pure (l, p)
  | _ => throw "parser internal error"

def PRes.as_stmt : PRes → Except String (Stmt × Nat)
  | .stmtR s p => pure (s, p)
  | _ => throw "parser internal error"

def PRes.as_stmts : PRes → Except String (List Stmt × Nat)
  | .stmtsR l p => pure (l, p)
  | _ => throw "parser internal error"

/-- The parser nonterminals (one constructor per mutually recursive C++
method; the Loop forms are the while/do-while loop bodies, carrying the
accumulated expression and, where the C++ keeps one, the saved start
position). -/
inductive PReq where
  | exprP (p : Nat)
  | assignmentP (p : Nat)
  | orP (p : Nat)
  | orLoopP (e : Expr) (p : Nat)
  | andP (p : Nat)
  | andLoopP (e : Expr) (p : Nat)
  | equalityP (p : Nat)
  | equalityLoopP (e : Expr) (p : Nat)
  | comparisonP (p : Nat)
  | comparisonLoopP (start : Nat) (e : Expr) (p : Nat)
  | termP (p : Nat)
  | termLoopP (start : Nat) (e : Expr) (p : Nat)
  | factorP (p : Nat)
  | factorLoopP (start : Nat) (e : Expr) (p : Nat)
  | unaryP (p : Nat)
  | callP (p : Nat)
  | callLoopP (start : Nat) (e : Expr) (p : Nat)
  | argsLoopP (p : Nat)
  | primaryP (p : Nat)
  | statementP (p : Nat)
  | letP (p : Nat)
  | ifP (p : Nat)
  | whileP (p : Nat)
  | blockP (p : Nat)
  | blockLoopP (p : Nat)

/-- The mutually recursive parse methods of parser.cpp, embedded as one
fuel-indexed function (fuel bounds the recursion depth; parse_fuel below
always suffices).  Case by case:
  exprP         = parse_expr (259-261)
  assignmentP   = parse_assignment (263-282); a non-identifier left side
                  raises the bare runtime_error "Invalid assignment target"
  orP/orLoopP   = parse_or (284-299)
  andP/andLoopP = parse_and (301-316)
  equalityP/equalityLoopP = parse_equality (318-346)
  comparisonP/comparisonLoopP = parse_comparison (348-372); faithful to
                  the source, match("<") is tried before match("<="), so
                  "<=" and ">=" never match
  termP/termLoopP     = parse_term (374-396)
  factorP/factorLoopP = parse_factor (398-420)
  unaryP        = parse_unary (422-456)
  callP/callLoopP/argsLoopP = parse_call (458-487)
  primaryP      = parse_primary (489-524)
  statementP    = parse_statement (125-144)
  letP          = parse_let (146-179), entered after "let" was consumed
  ifP           = parse_if (181-213)
  whileP        = parse_while (215-232)
  blockP/blockLoopP = parse_block (234-257) -/
def parse_fn (src : List Char) : Nat → PReq → Except String PRes
  | 0, _ => throw "parser out of fuel"
  | fuel + 1, .exprP p => parse_fn src fuel (.assignmentP p)
  | fuel + 1, .assignmentP p => do
    let (lhs, p1) ← (← parse_fn src fuel (.orP p)).as_expr
    let (meq, p2) := pmatch src p1 "="
    if meq then
      let p3 := skip_ws src p2
      if !lhs.is_ident then throw "Invalid assignment target"
      else do
        let (rhs, p4) ← (← parse_fn src fuel (.assignmentP p3)).as_expr
        pure (.exprR (.binary ⟨lhs.span.start, p4⟩ .assignment lhs rhs) p4)
    else pure (.exprR lhs p1)
  | fuel + 1, .orP p => do
    let (e, p1) ← (← parse_fn src fuel (.andP p)).as_expr
    parse_fn src fuel (.orLoopP e p1)
  | fuel + 1, .orLoopP e p =>
    let (m, p1) := pmatch src p "||"
    if m then do
      let p2 := skip_ws src p1
      let (r, p3) ← (← parse_fn src fuel (.andP p2)).as_expr
      parse_fn src fuel (.orLoopP (.binary ⟨e.span.start, p3⟩ .or e r) p3)
    else pure (.exprR e p)
  | fuel + 1, .andP p => do
    let (e, p1) ← (← parse_fn src fuel (.equalityP p)).as_expr
    parse_fn src fuel (.andLoopP e p1)
  | fuel + 1, .andLoopP e p =>
    let (m, p1) := pmatch src p "&&"
    if m then do
      let p2 := skip_ws src p1
      let (r, p3) ← (← parse_fn src fuel (.equalityP p2)).as_expr
      parse_fn src fuel (.andLoopP (.binary ⟨e.span.start, p3⟩ .and e r) p3)
    else pure (.exprR e p)
  | fuel + 1, .equalityP p => do
    let (e, p1) ← (← parse_fn src fuel (.comparisonP p)).as_expr
    parse_fn src fuel (.equalityLoopP e p1)
  | fuel + 1, .equalityLoopP e p =>
    let (me, p1) := pmatch src p "=="
    if me then do
      let p2 := skip_ws src p1
      let (r, p3) ← (← parse_fn src fuel (.comparisonP p2)).as_expr
      parse_fn src fuel (.equalityLoopP (.binary ⟨e.span.start, p3⟩ .eq e r) p3)
    else
      let (mn, p4) := pmatch src p "!="
      if mn then do
        let p5 := skip_ws src p4
        let (r, p6) ← (← parse_fn src fuel (.comparisonP p5)).as_expr
        parse_fn src fuel (.equalityLoopP (.binary ⟨e.span.start, p6⟩ .ne e r) p6)
      else pure (.exprR e p)
  | fuel + 1, .comparisonP p => do
    let (e, p1) ← (← parse_fn src fuel (.termP p)).as_expr
    parse_fn src fuel (.comparisonLoopP p e p1)
  | fuel + 1, .comparisonLoopP start e p =>
    let p1 := skip_ws src p
    let step : Option (BinOp × Nat) :=
      let (m1, q1) := pmatch src p1 "<"
      if m1 then some (.lt, q1)
      else
        let (m2, q2) := pmatch src p1 "<="
        if m2 then some (.le, q2)
        else
          let (m3, q3) := pmatch src p1 ">"
          if m3 then some (.gt, q3)
          else
            let (m4, q4) := pmatch src p1 ">="
            if m4 then some (.ge, q4)
            else none
    match step with
    | some (op, p2) => do
      let p3 := skip_ws src p2
      let (r, p4) ← (← parse_fn src fuel (.termP p3)).as_expr
      parse_fn src fuel (.comparisonLoopP start (.binary ⟨start, p4⟩ op e r) p4)
    | none => pure (.exprR e p1)
  | fuel + 1, .termP p => do
    let (e, p1) ← (← parse_fn src fuel (.factorP p)).as_expr
    parse_fn src fuel (.termLoopP p e p1)
  | fuel + 1, .termLoopP start e p =>
    let p1 := skip_ws src p
    let (mp, q1) := pmatch src p1 "+"
    if mp then do
      let p2 := skip_ws src q1
      let (r, p3) ← (← parse_fn src fuel (.factorP p2)).as_expr
      parse_fn src fuel (.termLoopP start (.binary ⟨start, p3⟩ .add e r) p3)
    else
      let (mm, q2) := pmatch src p1 "-"
      if mm then do
        let p2 := skip_ws src q2
        let (r, p3) ← (← parse_fn src fuel (.factorP p2)).as_expr
        parse_fn src fuel (.termLoopP start (.binary ⟨start, p3⟩ .sub e r) p3)
      else pure (.exprR e p1)
  | fuel + 1, .factorP p => do
    let (e, p1) ← (← parse_fn src fuel (.unaryP p)).as_expr
    parse_fn src fuel (.factorLoopP p e p1)
  | fuel + 1, .factorLoopP start e p =>
    let p1 := skip_ws src p
    let (mm, q1) := pmatch src p1 "*"
    if mm then do
      let p2 := skip_ws src q1
      let (r, p3) ← (← parse_fn src fuel (.unaryP p2)).as_expr
      parse_fn src fuel (.factorLoopP start (.binary ⟨start, p3⟩ .mul e r) p3)
    else
      let (md, q2) := pmatch src p1 "/"
      if md then do
        let p2 := skip_ws src q2
        let (r, p3) ← (← parse_fn src fuel (.unaryP p2)).as_expr
        parse_fn src fuel (.factorLoopP start (.binary ⟨start, p3⟩ .div e r) p3)
      else pure (.exprR e p1)
  | fuel + 1, .unaryP p =>
    let start := p
    let p1 := skip_ws src p
    let (mneg, q1) := pmatch src p1 "-"
    if mneg then do
      let (o, p2) ← (← parse_fn src fuel (.unaryP q1)).as_expr
      pure (.exprR (.unary ⟨start, p2⟩ .neg o) p2)
    else
      let (mnot, q2) := pmatch src p1 "!"
      if mnot then do
        let (o, p2) ← (← parse_fn src fuel (.unaryP q2)).as_expr
        pure (.exprR (.unary ⟨start, p2⟩ .not o) p2)
      else
        let (mamp, q3) := pmatch src p1 "&"
        if mamp then
          let (im, q4) := pmatch src q3 "mut"
          let q5 := if im then skip_ws src q4 else q4
          do
            let (o, p2) ← (← parse_fn src fuel (.unaryP q5)).as_expr
            pure (.exprR (.borrow ⟨start, p2⟩ im o) p2)
        else parse_fn src fuel (.callP p1)
  | fuel + 1, .callP p => do
    let (e, p1) ← (← parse_fn src fuel (.primaryP p)).as_expr
    parse_fn src fuel (.callLoopP p e p1)
  | fuel + 1, .callLoopP start e p =>
    let p1 := skip_ws src p
    let (mo, p2) := pmatch src p1 "("
    if mo then do
      let p3 := skip_ws src p2
      let (args, p4) ←
        if ppeek src p3 ")" then pure (([] : List Expr), p3)
        else (← parse_fn src fuel (.argsLoopP p3)).as_args
      let p5 ← pexpect src p4 ")"
      parse_fn src fuel (.callLoopP start (.call ⟨start, p5⟩ e args) p5)
    else pure (.exprR e p1)
  | fuel + 1, .argsLoopP p => do
    let (a, p1) ← (← parse_fn src fuel (.exprP p)).as_expr
    let p2 := skip_ws src p1
    let (mc, p3) := pmatch src p2 ","
    if mc then do
      let (rest, p4) ← (← parse_fn src fuel (.argsLoopP p3)).as_args
      pure (.argsR (a :: rest) p4)
    else pure (.argsR [a] p3)
  | fuel + 1, .primaryP p =>
    let start := p
    let p1 := skip_ws src p
    if is_digit_char (char_at src p1) then do
      let (v, p2) ← consume_integer src p1
      pure (.exprR (.intLit ⟨start, p2⟩ v) p2)
    else
      let (mt, q1) := pmatch src p1 "true"
      if mt then pure (.exprR (.boolLit ⟨start, q1⟩ true) q1)
      else
        let (mf, q2) := pmatch src p1 "false"
        if mf then pure (.exprR (.boolLit ⟨start, q2⟩ false) q2)
        else if char_at src p1 == Char.ofNat 34 then do
          let (sv, p2) ← consume_string src p1
          pure (.exprR (.strLit ⟨start, p2⟩ sv) p2)
        else if is_alpha_char (char_at src p1) || char_at src p1 == '_' then do
          let (name, p2) ← consume_identifier src p1
          pure (.exprR (.ident ⟨start, p2⟩ name) p2)
        else
          let (mp, q3) := pmatch src p1 "("
          if mp then do
            let (e, p2) ← (← parse_fn src fuel (.exprP q3)).as_expr
            let p3 ← pexpect src p2 ")"
            pure (.exprR e p3)
          else throw (parse_error_msg p1 "Expected expression")
  | fuel + 1, .statementP p =>
    let p1 := skip_ws src p
    let (ml, q1) := pmatch src p1 "let"
    if ml then parse_fn src fuel (.letP q1)
    else
      let (mi, q2) := pmatch src p1 "if"
      if mi then parse_fn src fuel (.ifP q2)
      else
        let (mw, q3) := pmatch src p1 "while"
        if mw then parse_fn src fuel (.whileP q3)
        else if ppeek src p1 "\x7b" then parse_fn src fuel (.blockP p1)
        else do
          let start := p1
          let (e, p2) ← (← parse_fn src fuel (.exprP p1)).as_expr
          let p3 := skip_ws src p2
          if !ppeek src p3 "\x7d" && !at_end src p3 then do
            let p4 ← pexpect src p3 ";"
            pure (.stmtR (.exprS ⟨start, p4⟩ e) p4)
          else pure (.stmtR (.exprS ⟨start, p3⟩ e) p3)
  | fuel + 1, .letP p => do
    let start := p
    let p1 := skip_ws src p
    let (im, p2) := pmatch src p1 "mut"
    let p3 := if im then skip_ws src p2 else p2
    let (name, p4) ← consume_identifier src p3
    let p5 := skip_ws src p4
    let p6 ← pexpect src p5 ":"
    let p7 := skip_ws src p6
    let (ty, p8) ← parse_type src fuel p7
    let p9 := skip_ws src p8
    let p10 ← pexpect src p9 "="
    let p11 := skip_ws src p10
    let (init, p12) ← (← parse_fn src fuel (.exprP p11)).as_expr
    let p13 := skip_ws src p12
    let p14 ← pexpect src p13 ";"
    pure (.stmtR (.letS ⟨start, p14⟩ im name ty init) p14)
  | fuel + 1, .ifP p => do
    let start := p
    let p1 := skip_ws src p
    let (cond, p2) ← (← parse_fn src fuel (.exprP p1)).as_expr
    let p3 := skip_ws src p2
    let (thenB, p4) ← (← parse_fn src fuel (.blockP p3)).as_stmt
    let p5 := skip_ws src p4
    let (melse, p6) := pmatch src p5 "else"
    if melse then do
      let p7 := skip_ws src p6
      let (mif, p8) := pmatch src p7 "if"
      let (elseB, p9) ←
        if mif then (← parse_fn src fuel (.ifP p8)).as_stmt
        else (← parse_fn src fuel (.blockP p7)).as_stmt
      pure (.stmtR (.ifS ⟨start, p9⟩ cond thenB (some elseB)) p9)
    else pure (.stmtR (.ifS ⟨start, p5⟩ cond thenB none) p5)
  | fuel + 1, .whileP p => do
    let start := p
    let p1 := skip_ws src p
    let (cond, p2) ← (← parse_fn src fuel (.exprP p1)).as_expr
    let p3 := skip_ws src p2
    let (body, p4) ← (← parse_fn src fuel (.blockP p3)).as_stmt
    pure (.stmtR (.whileS ⟨start, p4⟩ cond body) p4)
  | fuel + 1, .blockP p => do
    let start := p
    let p1 ← pexpect src p "\x7b"
    let (stmts, p2) ← (← parse_fn src fuel (.blockLoopP (skip_ws src p1))).as_stmts
    let p3 ← pexpect src p2 "\x7d"
    pure (.stmtR (.block ⟨start, p3⟩ stmts) p3)
  | fuel + 1, .blockLoopP p =>
    if !at_end src p && !ppeek src p "\x7d" then do
      let (s, p1) ← (← parse_fn src fuel (.statementP p)).as_stmt
      let (rest, p2) ← (← parse_fn src fuel (.blockLoopP (skip_ws src p1))).as_stmts
      pure (.stmtsR (s :: rest) p2)
    else pure (.stmtsR [] p)

/-- Parser::parse_expr, at a given fuel. -/
def parse_expr (src : List Char) (fuel p : Nat) : Except String (Expr × Nat) := do
  (← parse_fn src fuel (.exprP p)).as_expr

/-- Parser::parse_assignment, at a given fuel. -/
def parse_assignment (src : List Char) (fuel p : Nat) : Except String (Expr × Nat) := do
  (← parse_fn src fuel (.assignmentP p)).as_expr

/-- Parser::parse_block, at a given fuel. -/
def parse_block (src : List Char) (fuel p : Nat) : Except String (Stmt × Nat) := do
  (← parse_fn src fuel (.blockP p)).as_stmt

/-- Parser::parse_function (parser.cpp:25-68); a missing "->" records
the default return type I32 with an empty span at the current
position. -/
def parse_function (src : List Char) (fuel p : Nat) : Except String (FunctionDecl × Nat) := do
  let start := p
  let p1 ← pexpect src p "fn"
  let p2 := skip_ws src p1
  let (name, p3) ← consume_identifier src p2
  let p4 := skip_ws src p3
  let p5 ← pexpect src p4 "("
  let (params, p6) ← parse_params src fuel p5
  let p7 ← pexpect src p6 ")"
  let p8 := skip_ws src p7
  let (marrow, p9) := pmatch src p8 "->"
  let (rt, p10) ←
    if marrow then do
      let pa := skip_ws src p9
      let (t, pb) ← parse_type src fuel pa
      pure (t, skip_ws src pb)
    else pure (NType.mk .I32 none ⟨p8, p8⟩, p8)
  let (body, p11) ← parse_block src fuel p10
  pure (⟨⟨start, p11⟩, name, params, rt, body⟩, p11)

/-- The function loop of Parser::parse (parser.cpp:16-20). -/
def parse_program_loop (src : List Char) : Nat → Nat → Except String (List FunctionDecl × Nat)
  | 0, _ => throw "parser out of fuel"
  | fuel + 1, p =>
    if !at_end src p then do
      let (f, p1) ← parse_function src fuel p
      let (rest, p2) ← parse_program_loop src fuel (skip_ws src p1)
      pure (f :: rest, p2)
    else pure ([], p)

/-- A fuel budget always sufficient for the C++ parser's recursion
(depth is linear in the input length). -/
def parse_fuel (src : List Char) : Nat := 50 * (src.length + 2)

/-- Parser::parse (parser.cpp:12-23). -/
def parse_program (s : String) : Except String Program := do
  let src := s.data
  let p0 := skip_ws src 0
  let (items, pEnd) ← parse_program_loop src (parse_fuel src) p0
  pure ⟨⟨0, pEnd⟩, items⟩

/-! ## CLI pipeline and output formats (src/src/main.cpp) -/

/-- The pipeline of main.cpp:25-39: parse, type check (a failed check
aborts with exit code 1), compile.  A type-checker run that hits the
null-base_type dereference (see is_assignable) has no defined C++
behavior; it is reported as a distinct failure here. -/
def run_pipeline (s : String) : Except String CState := do
  let prog ← parse_program s
  match check_program (parse_fuel s.data) prog with
  | none => throw "undefined behavior in type checker"
  | some (ok, _) => if ok then compile (parse_fuel s.data) prog else throw "Type checking failed"

/-- Instruction vectors produced by the pipeline. -/
def pipeline_instructions (s : String) : Except String (List Instruction) :=
  (run_pipeline s).map (fun st => st.instructions)

def digit_char (d : Nat) : Char := Char.ofNat (48 + d)

/-- Decimal rendering of a Nat, as operator<< produces. -/
def nat_decimal (n : Nat) : List Char :=
  if n = 0 then [Char.ofNat 48] else (Nat.digits 10 n).reverse.map digit_char

/-- One line of the .ns assembly listing (main.cpp:54-60): the opcode
name, a space and the decimal operand when the opcode has one, then a
newline. -/
def instr_line (i : Instruction) : List Char :=
  (opcode_to_string i.opcode).data ++
    (if i.has_operand then ' ' :: nat_decimal i.operand else []) ++ [Char.ofNat 10]

/-- The full character stream of the .ns file. -/
def ns_output (l : List Instruction) : List Char := (l.map instr_line).flatten

/-- One instruction of the .no binary (main.cpp:70-78): the opcode byte
followed, when the opcode has an operand, by 8 little-endian bytes
(sizeof(size_t) on the 64-bit host, as fixed by §6). -/
def instr_bytes (i : Instruction) : List Nat :=
  opcode_byte i.opcode ::
    (if i.has_operand then (List.range 8).map (fun k => (i.operand >>> (8 * k)) % 256) else [])

/-- The full byte stream of the .no file. -/
def no_output (l : List Instruction) : List Nat := (l.map instr_bytes).flatten

/-! ## The .ns reader of the round-trip property.

The repository contains no .ns reader; spec §8 ("Round-trips") defines
one behaviorally.  The next definitions are therefore modelled from the
spec, not from src/. -/

/-- Split a character stream into lines at each newline character. -/
def split_lines : List Char → List (List Char)
  | [] => []
  | c :: cs =>
    if c == Char.ofNat 10 then [] :: split_lines cs
    else
      match split_lines cs with
      | [] => [[c]]
      | l :: ls => (c :: l) :: ls

/-- Split a line into whitespace-separated tokens, dropping empties. -/
def words_of : List Char → List (List Char)
  | [] => []
  | c :: cs =>
    if is_space_char c then words_of cs
    else
      match cs with
      | [] => [[c]]
      | c2 :: _ =>
        if is_space_char c2 then [c] :: words_of cs
        else
          match words_of cs with
          | [] => [[c]]
          | t :: ts => (c :: t) :: ts

/-- All opcodes, in declaration order. -/
def all_opcodes : List Opcode :=
  [.PUSH_I32, .PUSH_BOOL, .PUSH_STR, .POP, .DUP, .SWAP,
   .LOAD, .STORE, .LOAD_REF, .STORE_REF,
   .ADD_I32, .SUB_I32, .MUL_I32, .DIV_I32, .NEG_I32,
   .EQ_I32, .NE_I32, .LT_I32, .GT_I32, .LE_I32, .GE_I32,
   .AND, .OR, .NOT,
   .JMP, .JMP_IF, .JMP_IF_NOT, .CALL, .RET, .RET_VAL,
   .BORROW, .BORROW_MUT, .DEREF, .DEREF_MUT]

/-- Modelled from the spec: "matching the opcode table" — the inverse
of opcode_to_string. -/
def opcode_of_name (t : List Char) : Option Opcode :=
  all_opcodes.find? (fun op => (opcode_to_string op).data == t)

/-- Modelled from the spec: "reading the decimal operand". -/
def dec_of_chars (cs : List Char) : Option Nat :=
  if cs.isEmpty || !cs.all is_digit_char then none
  else some (cs.foldl (fun a c => a * 10 + (c.toNat - 48)) 0)

/-- Modelled from the spec (§8 Round-trips): one .ns line — split on
whitespace, match the opcode table, read the decimal operand exactly
when the opcode takes one. -/
def parse_ns_line (cs : List Char) : Option Instruction :=
  match words_of cs with
  | [name] => do
    let op ← opcode_of_name name
    if op.has_operand then none else some ⟨op, 0⟩
  | [name, num] => do
    let op ← opcode_of_name name
    if op.has_operand then do
      let v ← dec_of_chars num
      some ⟨op, v⟩
    else none
  | _ => none

/-- Modelled from the spec: the whole .ns stream read back line by
line. -/
def parse_ns (cs : List Char) : Option (List Instruction) :=
  (split_lines cs).mapM parse_ns_line

/-! ## Predicates and concrete programs used by the verification -/

/-- The jump opcodes (operands are absolute instruction indices). -/
def is_jump : Opcode → Bool
  | .JMP | .JMP_IF | .JMP_IF_NOT => true
  | _ => false

/-- Every jump operand in `l` is at most `n`. -/
def jumps_le (l : List Instruction) (n : Nat) : Prop :=
  ∀ i ∈ l, is_jump i.opcode = true → i.operand ≤ n

/-- Every jump operand in `l` is strictly below `n`. -/
def jumps_lt (l : List Instruction) (n : Nat) : Prop :=
  ∀ i ∈ l, is_jump i.opcode = true → i.operand < n

/-- RET_VAL never occurs in `l`. -/
def no_ret_val (l : List Instruction) : Prop :=
  ∀ i ∈ l, i.opcode ≠ .RET_VAL

/-- Operand-less instructions carry operand 0 (the C++ one-argument
Instruction constructor zero-initializes it). -/
def bare_zero (l : List Instruction) : Prop :=
  ∀ i ∈ l, i.has_operand = false → i.operand = 0

/-- The compiler invariant carried through lowering. -/
def cinv (l : List Instruction) : Prop :=
  jumps_le l l.length ∧ no_ret_val l ∧ bare_zero l

/-- Spec §8 row 4 / claim C2. -/
def c2_src : String := "fn main(){ let mut x: i32 = 10; while (x>0){ x = x - 1; } }"

/-- Two functions that each fail to type check (claim C1). -/
def c1_src : String := "fn f(){ let x: i32 = true; } fn g(){ let y: i32 = true; }"

/-- A successfully checked program with a doubly nested reference
(claim C4). -/
def c4_src : String := "fn main(){ let x: i32 = 0; let y: &&i32 = &&x; y; let z: i32 = 0; }"

/-- Spec §8 row 5 / claim C6. -/
def c6_src : String := "fn add(x:i32,y:i32)->i32{ x+y } fn main(){ let r:i32 = add(1,2); }"

/-- A mutable borrow inside an if-block, then an assignment after the
block exits (claim C8). -/
def c8_src : String := "fn main(){ let mut x: i32 = 0; if true { let r: &mut i32 = &mut x; } x = 1; }"

/-- A minimal compiled program (round-trip witness, claim C9/C10). -/
def c9w_src : String := "fn main(){ let x: i32 = 1; }"

/-- One lowering step: instructions are only appended (forward patches
stay inside the appended region), the function table is untouched, and
the compiler invariant is preserved. -/
def cstep (st st2 : CState) : Prop :=
  (∃ δ, st2.instructions = st.instructions ++ δ) ∧
  st2.function_table = st.function_table ∧
  (cinv st.instructions → cinv st2.instructions)

/-- The compiler's starting state (Compiler::compile resets to this,
with the pass-1 table installed). -/
def cstate0 : CState :=
  { instructions := [], string_constants := [], local_vars := [],
    next_local_index := 0, function_table := ⟨[], []⟩ }

/-- The program parsed from c9w_src (total by construction). -/
def c9w_prog : Program :=
  match parse_program c9w_src with
  | .ok p => p
  | .error _ => ⟨⟨0, 0⟩, []⟩

/-- The compiler state produced for c9w_prog. -/
def c9w_cstate : CState :=
  match compile 2000 c9w_prog with
  | .ok st => st
  | .error _ => cstate0

/-- A one-statement function whose body ends in an expression statement
(used to instantiate the block-final-POP lemma). -/
def c5w_fn : FunctionDecl :=
  ⟨⟨0, 0⟩, "main", [], .mk .I32 none ⟨0, 0⟩,
    .block ⟨0, 0⟩ [.exprS ⟨0, 0⟩ (.intLit ⟨0, 0⟩ 1)]⟩

def c5w_st : CState := { cstate0 with function_table := pass1 [c5w_fn] ⟨[], []⟩ }

def c5w_res : CState :=
  match compile_function 10 c5w_fn c5w_st with
  | .ok st => st
  | .error _ => cstate0

/-- A zero-argument function (C6 witness). -/
def c6w_fn : FunctionDecl :=
  ⟨⟨0, 0⟩, "add2", [], .mk .I32 none ⟨0, 0⟩, .block ⟨0, 0⟩ []⟩

def c6w_st : CState := { cstate0 with function_table := pass1 [c6w_fn] ⟨[], []⟩ }

def c6w_res : CState :=
  match compile_functions 10 [c6w_fn] c6w_st with
  | .ok st => st
  | .error _ => cstate0

/-- The program parsed from c1_src (total by construction). -/
def c1_prog : Program :=
  match parse_program c1_src with
  | .ok p => p
  | .error _ => ⟨⟨0, 0⟩, []⟩

/-- The program parsed from c4_src (total by construction). -/
def c4_prog : Program :=
  match parse_program c4_src with
  | .ok p => p
  | .error _ => ⟨⟨0, 0⟩, []⟩

/-- The statement list of c4_prog's only function body. -/
def c4_stmts : List Stmt :=
  match c4_prog.items with
  | f :: _ => (match f.body with | .block _ l => l | _ => [])
  | [] => []

/-- The program parsed from c8_src (total by construction). -/
def c8_prog : Program :=
  match parse_program c8_src with
  | .ok p => p
  | .error _ => ⟨⟨0, 0⟩, []⟩

/-- Error-list evolution across one checker call: the old list is a
prefix of the new, and a false result forces at least one new message. -/
def err_mono (a b2 : List String) (ok : Bool) : Prop :=
  a <+: b2 ∧ (ok = false → a.length < b2.length)

/-- The first function of c1_prog (total by construction). -/
def c1_fn : FunctionDecl :=
  match c1_prog.items with
  | f :: _ => f
  | [] => ⟨⟨0, 0⟩, "missing", [], .mk .I32 none ⟨0, 0⟩, .block ⟨0, 0⟩ []⟩

/-- The second function of c1_prog. -/
def c1_fn2 : FunctionDecl :=
  match c1_prog.items with
  | _ :: g :: _ => g
  | _ => c1_fn

/-- The state check_function leaves after c1_prog's first function. -/
def c1_fn_state : TCState :=
  match check_function c1_prog.items (parse_fuel c1_src.data) c1_fn ⟨[], []⟩ with
  | some r => r.2
  | none => ⟨[], []⟩

/-- The final checker state of check_program on c1_prog. -/
def c1_tcstate : TCState :=
  match check_program (parse_fuel c1_src.data) c1_prog with
  | some r => r.2
  | none => ⟨[], []⟩

/-- Concrete states for the C3 and C8 witnesses. -/
def c3w_st : TCState := ⟨[[("v", ⟨.mk .I32 none ⟨0, 0⟩, true⟩)]], []⟩

def c3w_res : Bool × Option NType × TCState :=
  match check_fn [] 2 (.expr (.borrow ⟨1, 2⟩ true (.ident ⟨1, 2⟩ "v"))) c3w_st with
  | some r => r
  | none => (false, none, c3w_st)

def c3w_info : VarInfo :=
  match lookup_variable "v" c3w_res.2.2 with
  | some i => i
  | none => ⟨.mk .I32 none ⟨0, 0⟩, false⟩

def c8w_st : TCState :=
  ⟨[[("v", ⟨.mk .I32 none ⟨0, 0⟩, true⟩)], [("v", ⟨.mk .I32 none ⟨0, 0⟩, true⟩)]], []⟩

def c8w_st2 : TCState :=
  match check_fn [] 2 (.expr (.borrow ⟨1, 2⟩ true (.ident ⟨1, 2⟩ "v"))) c8w_st with
  | some r => r.2.2
  | none => c8w_st

def c8w_ty : Option NType :=
  match check_fn [] 2 (.expr (.borrow ⟨1, 2⟩ true (.ident ⟨1, 2⟩ "v"))) c8w_st with
  | some r => r.2.1
  | none => none

def c8w_info : VarInfo :=
  match lookup_variable "v" (exit_scope (mark_borrowed "v" ⟨1, 2⟩ c8w_st)) with
  | some i => i
  | none => ⟨.mk .I32 none ⟨0, 0⟩, false⟩

/-- The or-level parse of the C7 witness source `1 = 2`. -/
def c7w_src : List Char := ("1 = 2").data

def c7w_or : Expr × Nat :=
  match parse_fn c7w_src 30 (.orP 0) with
  | .ok (.exprR e p) => (e, p)
  | _ => (.intLit ⟨0, 0⟩ 0, 0)

/-- The pipeline state of the C9 witness. -/
def c9w_pipe : CState :=
  match run_pipeline c9w_src with
  | .ok st => st
  | .error _ => cstate0

/-! # Theorems -/

/-! ## Generic helpers -/

theorem except_bind_ok {α β : Type} (x : Except String α) (f : α → Except String β) (b : β) :
    (x >>= f) = .ok b ↔ ∃ a, x = .ok a ∧ f a = .ok b := by
  cases x <;> simp [Bind.bind, Except.bind]

theorem option_bind_some {α β : Type} (x : Option α) (f : α → Option β) (b : β) :
    (x >>= f) = some b ↔ ∃ a, x = some a ∧ f a = some b := by
  cases x <;> simp

/-! ## Type-checker error accounting (claim C1) -/

theorem err_mono_refl (a : List String) : err_mono a a true :=
  ⟨List.prefix_refl a, by simp⟩

theorem err_mono_trans {a b c : List String} {o1 o2 : Bool}
    (h1 : err_mono a b o1) (h2 : err_mono b c o2) : err_mono a c (o1 && o2) := by
  refine ⟨h1.1.trans h2.1, fun h => ?_⟩
  cases o1 with
  | false => exact lt_of_lt_of_le (h1.2 rfl) h2.1.length_le
  | true =>
    cases o2 with
    | false => exact lt_of_le_of_lt h1.1.length_le (h2.2 rfl)
    | true => simp at h

theorem err_mono_trans_t {a b c : List String} {o : Bool}
    (h1 : err_mono a b true) (h2 : err_mono b c o) : err_mono a c o := by
  have h3 := err_mono_trans h1 h2
  simpa using h3

theorem err_mono_append (a : List String) (e : String) (ok : Bool) :
    err_mono a (a ++ [e]) ok :=
  ⟨⟨[e], rfl⟩, fun _ => by simp⟩

theorem err_mono_snoc {a b : List String} {o : Bool} (h : err_mono a b o) (e : String)
    (o2 : Bool) : err_mono a (b ++ [e]) o2 :=
  ⟨h.1.trans ⟨[e], rfl⟩, fun _ => lt_of_le_of_lt h.1.length_le (by simp)⟩

theorem err_mono_tc (st : TCState) (m : String) (sp : Span) (ok : Bool) :
    err_mono st.errors (tc_error m sp st).errors ok := err_mono_append _ _ _

theorem err_mono_tc_of {a : List String} {st : TCState} {o : Bool}
    (h : err_mono a st.errors o) (m : String) (sp : Span) (o2 : Bool) :
    err_mono a (tc_error m sp st).errors o2 := err_mono_snoc h _ _

theorem declare_variable_errors (name : String) (ty : NType) (m : Bool) (st : TCState) :
    (declare_variable name ty m st).2.errors = st.errors := by
  rcases st with ⟨scopes, errors⟩
  cases scopes with
  | nil => rfl
  | cons cur rest =>
    cases hC : cur.any (fun p => p.1 == name) <;>
      simp [declare_variable, hC]

/-- Every some-result of the checker walk only appends error messages,
and a false result appends at least one. -/
theorem check_fn_err_mono (prog : List FunctionDecl) :
    ∀ (fuel : Nat) (req : TReq) (st : TCState) (b : Bool) (t : Option NType) (st2 : TCState),
      check_fn prog fuel req st = some (b, t, st2) →
      err_mono st.errors st2.errors b := by
  intro fuel
  induction fuel with
  | zero => intro req st b t st2 h; simp [check_fn] at h
  | succ n ih =>
    intro req st b t st2 h
    cases req with
    | expr e =>
      cases e with
      | intLit sp v =>
        simp only [check_fn, Option.some.injEq, Prod.mk.injEq] at h
        obtain ⟨rfl, -, rfl⟩ := h
        exact err_mono_refl _
      | boolLit sp v =>
        simp only [check_fn, Option.some.injEq, Prod.mk.injEq] at h
        obtain ⟨rfl, -, rfl⟩ := h
        exact err_mono_refl _
      | strLit sp v =>
        simp only [check_fn, Option.some.injEq, Prod.mk.injEq] at h
        obtain ⟨rfl, -, rfl⟩ := h
        exact err_mono_refl _
      | ident sp name =>
        simp only [check_fn] at h
        split at h
        · simp only [Option.some.injEq, Prod.mk.injEq] at h
          obtain ⟨rfl, -, rfl⟩ := h
          exact err_mono_refl _
        · split at h
          · simp only [Option.some.injEq, Prod.mk.injEq] at h
            obtain ⟨rfl, -, rfl⟩ := h
            exact err_mono_tc _ _ _ _
          · simp only [Option.some.injEq, Prod.mk.injEq] at h
            obtain ⟨rfl, -, rfl⟩ := h
            exact err_mono_refl _
      | binary sp op l r =>
        simp only [check_fn] at h
        split at h
        · -- assignment
          split at h
          · -- l is an identifier
            split at h
            · -- lookup none
              simp only [Option.some.injEq, Prod.mk.injEq] at h
              obtain ⟨rfl, -, rfl⟩ := h
              exact err_mono_tc _ _ _ _
            · -- lookup some info
              split at h
              · simp only [Option.some.injEq, Prod.mk.injEq] at h
                obtain ⟨rfl, -, rfl⟩ := h
                exact err_mono_tc _ _ _ _
              · split at h
                · simp only [Option.some.injEq, Prod.mk.injEq] at h
                  obtain ⟨rfl, -, rfl⟩ := h
                  exact err_mono_tc _ _ _ _
                · rw [option_bind_some] at h
                  obtain ⟨⟨ok, rty, st1⟩, h1, h⟩ := h
                  have e1 := ih _ _ _ _ _ h1
                  split at h
                  · next hok =>
                    simp only [Option.some.injEq, Prod.mk.injEq] at h
                    obtain ⟨rfl, -, rfl⟩ := h
                    have : ok = false := by simpa using hok
                    subst this
                    exact e1
                  · next hok =>
                    have : ok = true := by simpa using hok
                    subst this
                    split at h
                    · exact Option.noConfusion h
                    · rw [option_bind_some] at h
                      obtain ⟨ok2, h2, h⟩ := h
                      split at h
                      · simp only [Option.some.injEq, Prod.mk.injEq] at h
                        obtain ⟨rfl, -, rfl⟩ := h
                        exact err_mono_tc_of e1 _ _ _
                      · simp only [Option.some.injEq, Prod.mk.injEq] at h
                        obtain ⟨rfl, -, rfl⟩ := h
                        exact e1
          · -- l not an identifier
            simp only [Option.some.injEq, Prod.mk.injEq] at h
            obtain ⟨rfl, -, rfl⟩ := h
            exact err_mono_tc _ _ _ _
        · -- non-assignment binary
          rw [option_bind_some] at h
          obtain ⟨⟨okL, lty, st1⟩, h1, h⟩ := h
          have e1 := ih _ _ _ _ _ h1
          split at h
          · next hok =>
            simp only [Option.some.injEq, Prod.mk.injEq] at h
            obtain ⟨rfl, -, rfl⟩ := h
            have : okL = false := by simpa using hok
            subst this
            exact e1
          · next hok =>
            have : okL = true := by simpa using hok
            subst this
            rw [option_bind_some] at h
            obtain ⟨⟨okR, rty, st2m⟩, h2, h⟩ := h
            have e2 := ih _ _ _ _ _ h2
            split at h
            · next hok2 =>
              simp only [Option.some.injEq, Prod.mk.injEq] at h
              obtain ⟨rfl, -, rfl⟩ := h
              have : okR = false := by simpa using hok2
              subst this
              exact err_mono_trans_t e1 e2
            · next hok2 =>
              have : okR = true := by simpa using hok2
              subst this
              have e12 := err_mono_trans_t e1 e2
              split at h
              all_goals try split at h
              all_goals try (rw [option_bind_some] at h; obtain ⟨c, hc, h⟩ := h)
              all_goals try split at h
              all_goals simp only [Option.some.injEq, Prod.mk.injEq] at h
              all_goals obtain ⟨rfl, -, rfl⟩ := h
              all_goals first
                | exact e12
                | exact err_mono_tc_of e12 _ _ _
      | unary sp op operand =>
        simp only [check_fn] at h
        rw [option_bind_some] at h
        obtain ⟨⟨ok, oty, st1⟩, h1, h⟩ := h
        have e1 := ih _ _ _ _ _ h1
        split at h
        · next hok =>
          simp only [Option.some.injEq, Prod.mk.injEq] at h
          obtain ⟨rfl, -, rfl⟩ := h
          have : ok = false := by simpa using hok
          subst this
          exact e1
        · next hok =>
          have : ok = true := by simpa using hok
          subst this
          split at h
          · simp only [Option.some.injEq, Prod.mk.injEq] at h
            obtain ⟨rfl, -, rfl⟩ := h
            exact err_mono_tc_of e1 _ _ _
          · split at h
            · split at h
              · simp only [Option.some.injEq, Prod.mk.injEq] at h
                obtain ⟨rfl, -, rfl⟩ := h
                exact err_mono_tc_of e1 _ _ _
              · simp only [Option.some.injEq, Prod.mk.injEq] at h
                obtain ⟨rfl, -, rfl⟩ := h
                exact e1
            · split at h
              · simp only [Option.some.injEq, Prod.mk.injEq] at h
                obtain ⟨rfl, -, rfl⟩ := h
                exact err_mono_tc_of e1 _ _ _
              · simp only [Option.some.injEq, Prod.mk.injEq] at h
                obtain ⟨rfl, -, rfl⟩ := h
                exact e1
      | borrow sp m operand =>
        simp only [check_fn] at h
        rw [option_bind_some] at h
        obtain ⟨⟨ok, oty, st1⟩, h1, h⟩ := h
        have e1 := ih _ _ _ _ _ h1
        split at h
        · next hok =>
          simp only [Option.some.injEq, Prod.mk.injEq] at h
          obtain ⟨rfl, -, rfl⟩ := h
          have : ok = false := by simpa using hok
          subst this
          exact e1
        · next hok =>
          have : ok = true := by simpa using hok
          subst this
          split at h
          · simp only [Option.some.injEq, Prod.mk.injEq] at h
            obtain ⟨rfl, -, rfl⟩ := h
            exact err_mono_tc_of e1 _ _ _
          · split at h
            · next st2m hstep =>
              -- step returned (false, st2m): st2m is a tc_error over st1
              simp only [Option.some.injEq, Prod.mk.injEq] at h
              obtain ⟨rfl, -, rfl⟩ := h
              -- analyse how step produced false
              split at hstep
              · split at hstep
                · split at hstep
                  · injection hstep with hb hst
                    subst hst
                    exact err_mono_tc_of e1 _ _ _
                  · split at hstep
                    · injection hstep with hb hst
                      subst hst
                      exact err_mono_tc_of e1 _ _ _
                    · split at hstep
                      · injection hstep with hb hst
                        subst hst
                        exact err_mono_tc_of e1 _ _ _
                      · exact absurd hstep (by simp)
                · exact absurd hstep (by simp)
              · exact absurd hstep (by simp)
            · next st2m hstep =>
              -- step returned (true, st2m): errors unchanged from st1
              simp only [Option.some.injEq, Prod.mk.injEq] at h
              obtain ⟨rfl, -, rfl⟩ := h
              have hsame : st2m.errors = st1.errors := by
                split at hstep
                · split at hstep
                  · split at hstep
                    · exact absurd hstep (by simp)
                    · split at hstep
                      · exact absurd hstep (by simp)
                      · split at hstep
                        · exact absurd hstep (by simp)
                        · injection hstep with hb hst
                          subst hst
                          rfl
                  · injection hstep with hb hst
                    subst hst
                    rfl
                · injection hstep with hb hst
                  subst hst
                  rfl
              rw [hsame]
              exact e1
      | call sp callee args =>
        simp only [check_fn] at h
        rw [option_bind_some] at h
        obtain ⟨⟨ok, cty, st1⟩, h1, h⟩ := h
        have e1 := ih _ _ _ _ _ h1
        split at h
        · next hok =>
          simp only [Option.some.injEq, Prod.mk.injEq] at h
          obtain ⟨rfl, -, rfl⟩ := h
          have : ok = false := by simpa using hok
          subst this
          exact e1
        · next hok =>
          have : ok = true := by simpa using hok
          subst this
          split at h
          · -- callee is an identifier
            split at h
            · simp only [Option.some.injEq, Prod.mk.injEq] at h
              obtain ⟨rfl, -, rfl⟩ := h
              exact err_mono_tc_of e1 _ _ _
            · split at h
              · simp only [Option.some.injEq, Prod.mk.injEq] at h
                obtain ⟨rfl, -, rfl⟩ := h
                exact err_mono_tc_of e1 _ _ _
              · rw [option_bind_some] at h
                obtain ⟨⟨ok2, t2, st2m⟩, h2, h⟩ := h
                have e2 := ih _ _ _ _ _ h2
                split at h
                · next hok2 =>
                  simp only [Option.some.injEq, Prod.mk.injEq] at h
                  obtain ⟨rfl, -, rfl⟩ := h
                  have : ok2 = false := by simpa using hok2
                  subst this
                  exact err_mono_trans_t e1 e2
                · next hok2 =>
                  have : ok2 = true := by simpa using hok2
                  subst this
                  simp only [Option.some.injEq, Prod.mk.injEq] at h
                  obtain ⟨rfl, -, rfl⟩ := h
                  exact err_mono_trans_t e1 e2
          · -- callee not an identifier
            simp only [Option.some.injEq, Prod.mk.injEq] at h
            obtain ⟨rfl, -, rfl⟩ := h
            exact err_mono_tc_of e1 _ _ _
    | args cname sp i argl params =>
      simp only [check_fn] at h
      split at h
      · -- argl = []
        simp only [Option.some.injEq, Prod.mk.injEq] at h
        obtain ⟨rfl, -, rfl⟩ := h
        exact err_mono_refl _
      · -- a :: rest, p :: ps
        rw [option_bind_some] at h
        obtain ⟨⟨ok, aty, st1⟩, h1, h⟩ := h
        have e1 := ih _ _ _ _ _ h1
        split at h
        · next hok =>
          simp only [Option.some.injEq, Prod.mk.injEq] at h
          obtain ⟨rfl, -, rfl⟩ := h
          have : ok = false := by simpa using hok
          subst this
          exact e1
        · next hok =>
          have : ok = true := by simpa using hok
          subst this
          split at h
          · simp only [Option.some.injEq, Prod.mk.injEq] at h
            obtain ⟨rfl, -, rfl⟩ := h
            exact err_mono_tc_of e1 _ _ _
          · rw [option_bind_some] at h
            obtain ⟨ok2, h2, h⟩ := h
            split at h
            · simp only [Option.some.injEq, Prod.mk.injEq] at h
              obtain ⟨rfl, -, rfl⟩ := h
              exact err_mono_tc_of e1 _ _ _
            · have e2 := ih _ _ _ _ _ h
              exact err_mono_trans_t e1 e2
      · -- _ :: _, []
        simp only [Option.some.injEq, Prod.mk.injEq] at h
        obtain ⟨rfl, -, rfl⟩ := h
        exact err_mono_refl _
    | stmt s =>
      cases s with
      | letS sp m name ty init =>
        simp only [check_fn] at h
        rw [option_bind_some] at h
        obtain ⟨⟨ok, ity, st1⟩, h1, h⟩ := h
        have e1 := ih _ _ _ _ _ h1
        split at h
        · next hok =>
          simp only [Option.some.injEq, Prod.mk.injEq] at h
          obtain ⟨rfl, -, rfl⟩ := h
          have : ok = false := by simpa using hok
          subst this
          exact e1
        · next hok =>
          have : ok = true := by simpa using hok
          subst this
          split at h
          · exact Option.noConfusion h
          · rw [option_bind_some] at h
            obtain ⟨ok2, h2, h⟩ := h
            split at h
            · simp only [Option.some.injEq, Prod.mk.injEq] at h
              obtain ⟨rfl, -, rfl⟩ := h
              exact err_mono_tc_of e1 _ _ _
            · split at h
              · next hok3 =>
                simp only [Option.some.injEq, Prod.mk.injEq] at h
                obtain ⟨rfl, -, rfl⟩ := h
                have hd : ((declare_variable name (copy2 ty ty.span) m st1).2).errors
                    = st1.errors := declare_variable_errors _ _ _ _
                have e1d : err_mono st.errors
                    ((declare_variable name (copy2 ty ty.span) m st1).2).errors true := by
                  rw [hd]; exact e1
                exact err_mono_tc_of e1d _ _ _
              · simp only [Option.some.injEq, Prod.mk.injEq] at h
                obtain ⟨rfl, -, rfl⟩ := h
                have hd : ((declare_variable name (copy2 ty ty.span) m st1).2).errors
                    = st1.errors := declare_variable_errors _ _ _ _
                rw [hd]
                exact e1
      | exprS sp e =>
        simp only [check_fn] at h
        rw [option_bind_some] at h
        obtain ⟨⟨ok, ty2, st1⟩, h1, h⟩ := h
        have e1 := ih _ _ _ _ _ h1
        simp only [Option.some.injEq, Prod.mk.injEq] at h
        obtain ⟨rfl, -, rfl⟩ := h
        exact e1
      | ifS sp cond thenB elseB =>
        simp only [check_fn] at h
        rw [option_bind_some] at h
        obtain ⟨⟨ok, cty, st1⟩, h1, h⟩ := h
        have e1 := ih _ _ _ _ _ h1
        split at h
        · next hok =>
          simp only [Option.some.injEq, Prod.mk.injEq] at h
          obtain ⟨rfl, -, rfl⟩ := h
          have : ok = false := by simpa using hok
          subst this
          exact e1
        · next hok =>
          have : ok = true := by simpa using hok
          subst this
          split at h
          · simp only [Option.some.injEq, Prod.mk.injEq] at h
            obtain ⟨rfl, -, rfl⟩ := h
            exact err_mono_tc_of e1 _ _ _
          · rw [option_bind_some] at h
            obtain ⟨⟨thenOk, tt2, st2m⟩, h2, h⟩ := h
            have e2 := ih _ _ _ _ _ h2
            split at h
            · -- else branch present
              rw [option_bind_some] at h
              obtain ⟨⟨elseOk, te2, st4⟩, h4, h⟩ := h
              have e4 := ih _ _ _ _ _ h4
              simp only [Option.some.injEq, Prod.mk.injEq] at h
              obtain ⟨rfl, -, rfl⟩ := h
              exact err_mono_trans (err_mono_trans_t e1 e2) e4
            · -- no else branch
              simp only [Option.some.injEq, Prod.mk.injEq] at h
              obtain ⟨rfl, -, rfl⟩ := h
              exact err_mono_trans_t e1 e2
      | whileS sp cond body =>
        simp only [check_fn] at h
        rw [option_bind_some] at h
        obtain ⟨⟨ok, cty, st1⟩, h1, h⟩ := h
        have e1 := ih _ _ _ _ _ h1
        split at h
        · next hok =>
          simp only [Option.some.injEq, Prod.mk.injEq] at h
          obtain ⟨rfl, -, rfl⟩ := h
          have : ok = false := by simpa using hok
          subst this
          exact e1
        · next hok =>
          have : ok = true := by simpa using hok
          subst this
          split at h
          · simp only [Option.some.injEq, Prod.mk.injEq] at h
            obtain ⟨rfl, -, rfl⟩ := h
            exact err_mono_tc_of e1 _ _ _
          · rw [option_bind_some] at h
            obtain ⟨⟨bOk, tb2, st2m⟩, h2, h⟩ := h
            have e2 := ih _ _ _ _ _ h2
            simp only [Option.some.injEq, Prod.mk.injEq] at h
            obtain ⟨rfl, -, rfl⟩ := h
            exact err_mono_trans_t e1 e2
      | block sp stmts =>
        simp only [check_fn] at h
        rw [option_bind_some] at h
        obtain ⟨⟨ok, t2, st1⟩, h1, h⟩ := h
        have e1 := ih _ _ _ _ _ h1
        simp only [Option.some.injEq, Prod.mk.injEq] at h
        obtain ⟨rfl, -, rfl⟩ := h
        exact e1
    | stmts l =>
      cases l with
      | nil =>
        simp only [check_fn, Option.some.injEq, Prod.mk.injEq] at h
        obtain ⟨rfl, -, rfl⟩ := h
        exact err_mono_refl _
      | cons s rest =>
        simp only [check_fn] at h
        rw [option_bind_some] at h
        obtain ⟨⟨ok, t2, st1⟩, h1, h⟩ := h
        have e1 := ih _ _ _ _ _ h1
        split at h
        · next hok =>
          have : ok = true := by simpa using hok
          subst this
          have e2 := ih _ _ _ _ _ h
          exact err_mono_trans_t e1 e2
        · next hok =>
          simp only [Option.some.injEq, Prod.mk.injEq] at h
          obtain ⟨rfl, -, rfl⟩ := h
          have : ok = false := by simpa using hok
          subst this
          exact e1

theorem check_params_err : ∀ (ps : List Param) (st : TCState) (b : Bool) (st2 : TCState),
    check_params ps st = (b, st2) → err_mono st.errors st2.errors b := by
  intro ps
  induction ps with
  | nil =>
    intro st b st2 h
    simp only [check_params, Prod.mk.injEq] at h
    obtain ⟨rfl, rfl⟩ := h
    exact err_mono_refl _
  | cons p rest ihp =>
    intro st b st2 h
    simp only [check_params] at h
    rcases hd : declare_variable p.name (copy2 p.ty p.ty.span) p.is_mut st with ⟨ok, st1⟩
    rw [hd] at h
    have hde : st1.errors = st.errors := by
      have h2 := declare_variable_errors p.name (copy2 p.ty p.ty.span) p.is_mut st
      rw [hd] at h2
      exact h2
    cases ok with
    | true =>
      simp only [if_true] at h
      have h3 := ihp st1 b st2 h
      rw [hde] at h3
      exact h3
    | false =>
      simp only [Bool.false_eq_true, if_false, Prod.mk.injEq] at h
      obtain ⟨rfl, rfl⟩ := h
      have h4 := err_mono_tc st1 ("Duplicate parameter name: " ++ p.name) p.span false
      rw [hde] at h4
      exact h4

theorem check_statement_err (prog : List FunctionDecl) (fuel : Nat) (s : Stmt)
    (st : TCState) (b : Bool) (st2 : TCState)
    (h : check_statement prog fuel s st = some (b, st2)) :
    err_mono st.errors st2.errors b := by
  simp only [check_statement, Option.map_eq_some'] at h
  obtain ⟨⟨b1, t1, st1⟩, h1, h2⟩ := h
  simp only [Prod.mk.injEq] at h2
  obtain ⟨rfl, rfl⟩ := h2
  exact check_fn_err_mono prog fuel _ _ _ _ _ h1

theorem check_return_err (prog : List FunctionDecl) (fuel : Nat) (f : FunctionDecl)
    (st : TCState) (b : Bool) (st2 : TCState)
    (h : check_return prog fuel f st = some (b, st2)) :
    err_mono st.errors st2.errors b := by
  unfold check_return at h
  split at h
  · split at h
    · rw [option_bind_some] at h
      obtain ⟨⟨ok, ety, st1⟩, h1, h⟩ := h
      have e1 := check_fn_err_mono prog fuel _ _ _ _ _ h1
      cases ok with
      | false =>
        simp only [Bool.not_false, if_true, Option.some.injEq, Prod.mk.injEq] at h
        obtain ⟨rfl, rfl⟩ := h
        exact e1
      | true =>
        simp only [Bool.not_true, Bool.false_eq_true, if_false] at h
        split at h
        · exact Option.noConfusion h
        · rw [option_bind_some] at h
          obtain ⟨ok2, h2, h⟩ := h
          split at h
          · simp only [Option.some.injEq, Prod.mk.injEq] at h
            obtain ⟨rfl, rfl⟩ := h
            exact err_mono_tc_of e1 _ _ _
          · simp only [Option.some.injEq, Prod.mk.injEq] at h
            obtain ⟨rfl, rfl⟩ := h
            exact e1
    all_goals
      simp only [Option.some.injEq, Prod.mk.injEq] at h
      obtain ⟨rfl, rfl⟩ := h
      exact err_mono_refl _
  all_goals
    simp only [Option.some.injEq, Prod.mk.injEq] at h
    obtain ⟨rfl, rfl⟩ := h
    exact err_mono_refl _

theorem check_function_err (prog : List FunctionDecl) (fuel : Nat) (f : FunctionDecl)
    (st : TCState) (b : Bool) (st2 : TCState)
    (h : check_function prog fuel f st = some (b, st2)) :
    err_mono st.errors st2.errors b := by
  simp only [check_function] at h
  rcases hp : check_params f.params (enter_scope st) with ⟨pok, st1⟩
  rw [hp] at h
  have ep := check_params_err f.params (enter_scope st) pok st1 hp
  cases pok with
  | false =>
    simp only [Bool.not_false, if_true, Option.some.injEq, Prod.mk.injEq] at h
    obtain ⟨rfl, rfl⟩ := h
    exact ep
  | true =>
    simp only [Bool.not_true, Bool.false_eq_true, if_false] at h
    rw [option_bind_some] at h
    obtain ⟨⟨bodyOk, st2m⟩, hb, h⟩ := h
    have e2 := check_statement_err prog fuel f.body st1 bodyOk st2m hb
    rw [option_bind_some] at h
    obtain ⟨⟨retOk, st3⟩, hr, h⟩ := h
    have e3 := check_return_err prog fuel f st2m retOk st3 hr
    simp only [Option.some.injEq, Prod.mk.injEq] at h
    obtain ⟨rfl, rfl⟩ := h
    exact err_mono_trans_t ep (err_mono_trans e2 e3)

theorem check_functions_err (prog : List FunctionDecl) (fuel : Nat) :
    ∀ (fs : List FunctionDecl) (st : TCState) (b : Bool) (st2 : TCState),
      check_functions prog fuel fs st = some (b, st2) →
      err_mono st.errors st2.errors b := by
  intro fs
  induction fs with
  | nil =>
    intro st b st2 h
    simp only [check_functions, Option.some.injEq, Prod.mk.injEq] at h
    obtain ⟨rfl, rfl⟩ := h
    exact err_mono_refl _
  | cons f rest ihf =>
    intro st b st2 h
    simp only [check_functions] at h
    rw [option_bind_some] at h
    obtain ⟨⟨ok, st1⟩, h1, h⟩ := h
    have e1 := check_function_err prog fuel f st ok st1 h1
    split at h
    · next hok =>
      subst hok
      have e2 := ihf st1 b st2 h
      exact err_mono_trans_t e1 e2
    · next hok =>
      simp only [Option.some.injEq, Prod.mk.injEq] at h
      obtain ⟨rfl, rfl⟩ := h
      have : ok = false := by simpa using hok
      subst this
      exact e1

theorem check_program_iff (fuel : Nat) (p : Program) (b : Bool) (st : TCState)
    (h : check_program fuel p = some (b, st)) : b = false ↔ st.errors ≠ [] := by
  unfold check_program at h
  rw [option_bind_some] at h
  obtain ⟨⟨ok, st1⟩, h1, h⟩ := h
  have e1 := check_functions_err p.items fuel p.items ⟨[], []⟩ ok st1 h1
  simp only [Option.some.injEq, Prod.mk.injEq] at h
  obtain ⟨hb, rfl⟩ := h
  cases ok with
  | true =>
    subst hb
    rcases st1 with ⟨sc, errs⟩
    cases errs <;> simp [TCState.has_errors]
  | false =>
    subst hb
    have hne : st1.errors ≠ [] := List.length_pos.mp (e1.2 rfl)
    exact iff_of_true rfl hne

/-! ## Borrow marking (claims C3 and C8) -/

theorem copy2_kind (t : NType) (o : Span) : (copy2 t o).kind = t.kind := by
  cases t; rfl

/-- mark_entry acts on a frame entry found for `v`: the stored kind
becomes MutRef and is_mut is preserved. -/
theorem frame_find_mark (v : String) (sp : Span) :
    ∀ (frame : List (String × VarInfo)),
      frame_find (frame.map (mark_entry v sp)) v =
        (frame_find frame v).map (fun info =>
          ⟨.mk .MutRef (some (copy2 info.ty info.ty.span)) sp, info.is_mut⟩) := by
  intro frame
  induction frame with
  | nil => rfl
  | cons p rest ihf =>
    rcases hp : (p.1 == v) with _ | _
    · have hm : mark_entry v sp p = p := by
        unfold mark_entry
        rw [hp]
        rfl
      unfold frame_find at ihf ⊢
      simp only [List.map_cons, List.find?_cons, hm, hp]
      exact ihf
    · unfold frame_find
      have hm1 : (mark_entry v sp p).1 = p.1 := by
        unfold mark_entry
        rw [hp]
        rfl
      simp only [List.map_cons, List.find?_cons, hm1, hp]
      unfold mark_entry
      rw [hp]
      rfl

theorem findSome_frames_mark (v : String) (sp : Span) :
    ∀ (scopes : List (List (String × VarInfo))),
      ((scopes.map (fun fr => fr.map (mark_entry v sp))).findSome?
          (fun frame => frame_find frame v)) =
        (scopes.findSome? (fun frame => frame_find frame v)).map
          (fun info => ⟨.mk .MutRef (some (copy2 info.ty info.ty.span)) sp, info.is_mut⟩) := by
  intro scopes
  induction scopes with
  | nil => rfl
  | cons fr rest ihs =>
    simp only [List.map_cons, List.findSome?_cons]
    rw [frame_find_mark]
    cases frame_find fr v with
    | none => simpa using ihs
    | some stored => rfl

/-- After the marking loop, looking v up finds a MutRef entry with the
same mutability. -/
theorem lookup_mark_self (v : String) (sp : Span) (st : TCState) (info : VarInfo)
    (h : lookup_variable v st = some info) :
    ∃ info2, lookup_variable v (mark_borrowed v sp st) = some info2 ∧
      info2.ty.kind = .MutRef ∧ info2.is_mut = info.is_mut := by
  unfold lookup_variable at h ⊢
  unfold mark_borrowed
  rw [findSome_frames_mark]
  rcases hx : st.scopes.findSome? (fun frame => frame_find frame v) with _ | stored
  · rw [hx] at h
    exact Option.noConfusion h
  · rw [hx] at h
    simp only [Option.map_some', Option.some.injEq] at h
    subst h
    exact ⟨_, rfl, copy2_kind _ _, rfl⟩

/-- A lookup that still succeeds after the borrow scope was exited finds
the MutRef sentinel: the marking survives exit_scope. -/
theorem lookup_after_exit_marked (v : String) (sp : Span) (st : TCState) (info : VarInfo)
    (h : lookup_variable v (exit_scope (mark_borrowed v sp st)) = some info) :
    info.ty.kind = .MutRef := by
  have hsc : (exit_scope (mark_borrowed v sp st)).scopes =
      st.scopes.tail.map (fun fr => fr.map (mark_entry v sp)) := by
    rcases st with ⟨scopes, errors⟩
    cases scopes <;> rfl
  unfold lookup_variable at h
  rw [hsc, findSome_frames_mark] at h
  rcases hx : st.scopes.tail.findSome? (fun frame => frame_find frame v) with _ | stored
  · rw [hx] at h
    exact Option.noConfusion h
  · rw [hx] at h
    simp only [Option.map_some', Option.some.injEq] at h
    rw [← h]
    exact copy2_kind _ _

/-- Success shape of a mutable borrow of a plain identifier. -/
theorem mut_borrow_success (prog : List FunctionDecl) (fuel : Nat) (sp isp : Span)
    (v : String) (st : TCState) (t : Option NType) (st2 : TCState)
    (h : check_fn prog (fuel + 2) (.expr (.borrow sp true (.ident isp v))) st =
      some (true, t, st2)) :
    st2 = mark_borrowed v sp st ∧
    prog.any (fun f => f.name == v) = false ∧
    ∃ info, lookup_variable v st = some info ∧ info.is_mut = true ∧
      info.ty.kind ≠ .MutRef := by
  simp only [check_fn] at h
  rcases hany : prog.any (fun f => f.name == v) with _ | _
  · rcases hl : lookup_variable v st with _ | info
    · simp [hany, hl] at h
    · rcases hm : info.is_mut with _ | _
      · simp [hany, hl, hm] at h
      · by_cases hk : info.ty.kind = .MutRef
        · simp [hany, hl, hm, hk] at h
        · simp [hany, hl, hm, hk] at h
          obtain ⟨-, rfl⟩ := h
          exact ⟨rfl, rfl, info, rfl, hm, hk⟩
  · simp [hany] at h

/-- A second mutable borrow of v in a state where v is marked. -/
theorem mut_borrow_marked_rejected (prog : List FunctionDecl) (fuel2 : Nat)
    (sp2 isp2 : Span) (v : String) (st2 : TCState)
    (hany : prog.any (fun f => f.name == v) = false)
    (info2 : VarInfo) (hl2 : lookup_variable v st2 = some info2)
    (hm2 : info2.is_mut = true) (hk2 : info2.ty.kind = .MutRef) :
    check_fn prog (fuel2 + 2) (.expr (.borrow sp2 true (.ident isp2 v))) st2 =
      some (false, none, tc_error ("Variable already mutably borrowed: " ++ v) sp2 st2) := by
  simp only [check_fn]
  simp [hany, hl2, hm2, hk2]

/-- An assignment to v while its stored type carries the MutRef kind. -/
theorem assignment_while_borrowed (prog : List FunctionDecl) (fuel : Nat)
    (sp isp : Span) (v : String) (rhs : Expr) (st : TCState) (info : VarInfo)
    (hl : lookup_variable v st = some info) (hk : info.ty.kind = .MutRef) :
    check_fn prog (fuel + 1) (.expr (.binary sp .assignment (.ident isp v) rhs)) st =
      some (false, none,
        tc_error ("Cannot use variable while mutably borrowed: " ++ v) sp st) := by
  simp only [check_fn]
  simp [hl, hk]

/-! ## Parser: the assignment-target check (claim C7) -/

theorem except_bind_ok_eval {α β : Type} (a : α) (f : α → Except String β) :
    (Except.ok a >>= f) = f a := rfl

theorem assignment_non_ident_rejected (src : List Char) (fuel p : Nat)
    (e : Expr) (p1 : Nat)
    (hor : parse_fn src fuel (.orP p) = .ok (.exprR e p1))
    (hmeq : (pmatch src p1 "=").1 = true)
    (hid : e.is_ident = false) :
    parse_fn src (fuel + 1) (.assignmentP p) = .error "Invalid assignment target" := by
  rcases hpm : pmatch src p1 "=" with ⟨meq, p2⟩
  rw [hpm] at hmeq
  have hm : meq = true := hmeq
  subst hm
  simp only [parse_fn]
  rw [hor]
  simp [PRes.as_expr, hpm, hid, except_bind_ok_eval]
  rfl

/-! ## Compiler structure lemmas -/

theorem emit_instructions (i : Instruction) (st : CState) :
    (emit i st).instructions = st.instructions ++ [i] := rfl

theorem emit_table (i : Instruction) (st : CState) :
    (emit i st).function_table = st.function_table := rfl

theorem set_operand_list_length (v : Nat) :
    ∀ (l : List Instruction) (i : Nat), (set_operand_list l i v).length = l.length := by
  intro l
  induction l with
  | nil => intro i; cases i <;> rfl
  | cons x rest ih => intro i; cases i with
    | zero => rfl
    | succ n => simpa [set_operand_list] using ih n

theorem set_operand_list_append (v : Nat) (x : Instruction) (l2 : List Instruction) :
    ∀ (l1 : List Instruction),
      set_operand_list (l1 ++ x :: l2) l1.length v = l1 ++ { x with operand := v } :: l2 := by
  intro l1
  induction l1 with
  | nil => rfl
  | cons y rest ih => simpa [set_operand_list] using ih

theorem jumps_le_mono {l : List Instruction} {n m : Nat} (h : jumps_le l n) (hnm : n ≤ m) :
    jumps_le l m := fun i hi hj => Nat.le_trans (h i hi hj) hnm

theorem jumps_le_append {l1 l2 : List Instruction} {n : Nat}
    (h1 : jumps_le l1 n) (h2 : jumps_le l2 n) : jumps_le (l1 ++ l2) n := by
  intro i hi hj
  rcases List.mem_append.mp hi with h | h
  · exact h1 i h hj
  · exact h2 i h hj

theorem cinv_snoc {l : List Instruction} {i : Instruction} (h : cinv l)
    (hj : is_jump i.opcode = true → i.operand ≤ l.length + 1)
    (hrv : i.opcode ≠ .RET_VAL)
    (hb : i.has_operand = false → i.operand = 0) : cinv (l ++ [i]) := by
  obtain ⟨h1, h2, h3⟩ := h
  refine ⟨?_, ?_, ?_⟩
  · intro j hjm hjj
    rcases List.mem_append.mp hjm with hm | hm
    · calc j.operand ≤ l.length := h1 j hm hjj
        _ ≤ (l ++ [i]).length := by simp
    · simp only [List.mem_singleton] at hm
      subst hm
      simpa [List.length_append] using hj hjj
  · intro j hjm
    rcases List.mem_append.mp hjm with hm | hm
    · exact h2 j hm
    · simp only [List.mem_singleton] at hm; subst hm; exact hrv
  · intro j hjm
    rcases List.mem_append.mp hjm with hm | hm
    · exact h3 j hm
    · simp only [List.mem_singleton] at hm; subst hm; exact hb

theorem cinv_patch {l1 l2 : List Instruction} {x : Instruction} {v : Nat}
    (h : cinv (l1 ++ x :: l2)) (hv : v ≤ (l1 ++ x :: l2).length)
    (hx : x.has_operand = true) :
    cinv (set_operand_list (l1 ++ x :: l2) l1.length v) := by
  rw [set_operand_list_append]
  obtain ⟨h1, h2, h3⟩ := h
  refine ⟨?_, ?_, ?_⟩
  · intro j hjm hjj
    rcases List.mem_append.mp hjm with hm | hm
    · have := h1 j (List.mem_append.mpr (Or.inl hm)) hjj
      simpa [List.length_append] using this
    · rcases List.mem_cons.mp hm with hm2 | hm2
      · subst hm2
        simpa [List.length_append] using hv
      · have := h1 j (List.mem_append.mpr (Or.inr (List.mem_cons.mpr (Or.inr hm2)))) hjj
        simpa [List.length_append] using this
  · intro j hjm
    rcases List.mem_append.mp hjm with hm | hm
    · exact h2 j (List.mem_append.mpr (Or.inl hm))
    · rcases List.mem_cons.mp hm with hm2 | hm2
      · subst hm2
        exact h2 x (List.mem_append.mpr (Or.inr (List.mem_cons.mpr (Or.inl rfl))))
      · exact h2 j (List.mem_append.mpr (Or.inr (List.mem_cons.mpr (Or.inr hm2))))
  · intro j hjm
    rcases List.mem_append.mp hjm with hm | hm
    · exact h3 j (List.mem_append.mpr (Or.inl hm))
    · rcases List.mem_cons.mp hm with hm2 | hm2
      · subst hm2
        intro hno
        simp only [Instruction.has_operand] at hno hx
        rw [hno] at hx
        cases hx
      · exact h3 j (List.mem_append.mpr (Or.inr (List.mem_cons.mpr (Or.inr hm2))))

theorem except_bind_ok2 {α β : Type} (x : Except String α) (f : α → Except String β) (b : β) :
    Except.bind x f = .ok b ↔ ∃ a, x = .ok a ∧ f a = .ok b := by
  cases x <;> simp [Except.bind]

theorem except_pure_ok {α : Type} (a b : α) :
    (pure a : Except String α) = .ok b ↔ b = a := by
  constructor
  · intro h; cases h; rfl
  · intro h; cases h; rfl

theorem cstep_rfl (st : CState) : cstep st st :=
  ⟨⟨[], by simp⟩, rfl, fun h => h⟩

theorem cstep_trans {st1 st2 st3 : CState} (h1 : cstep st1 st2) (h2 : cstep st2 st3) :
    cstep st1 st3 := by
  obtain ⟨⟨d1, e1⟩, t1, c1⟩ := h1
  obtain ⟨⟨d2, e2⟩, t2, c2⟩ := h2
  exact ⟨⟨d1 ++ d2, by simp [e2, e1]⟩, t2.trans t1, fun h => c2 (c1 h)⟩

theorem cstep_len {st1 st2 : CState} (h : cstep st1 st2) :
    st1.instructions.length ≤ st2.instructions.length := by
  obtain ⟨⟨d, e⟩, _, _⟩ := h
  simp [e]

theorem cstep_emit {i : Instruction} {st : CState}
    (hj : is_jump i.opcode = true → i.operand ≤ st.instructions.length + 1)
    (hrv : i.opcode ≠ .RET_VAL)
    (hb : i.has_operand = false → i.operand = 0) : cstep st (emit i st) :=
  ⟨⟨[i], rfl⟩, rfl, fun h => cinv_snoc h hj hrv hb⟩

theorem set_operand_table (st : CState) (i v : Nat) :
    (set_operand st i v).function_table = st.function_table := rfl

/-- Patching the forward jump recorded at the head of the suffix
`x :: l2` (its index is `l1.length`) with the current vector length. -/
theorem cstep_patch {stA stB : CState} {l1 l2 : List Instruction} {x : Instruction}
    (hAB : cstep stA stB)
    (hdec : stB.instructions = l1 ++ x :: l2)
    (hx : x.has_operand = true)
    (hpre : ∃ δ, l1 = stA.instructions ++ δ) :
    cstep stA (set_operand stB l1.length stB.instructions.length) := by
  obtain ⟨⟨dB, eB⟩, tB, cB⟩ := hAB
  obtain ⟨d1, e1⟩ := hpre
  have einstr : (set_operand stB l1.length stB.instructions.length).instructions =
      l1 ++ { x with operand := stB.instructions.length } :: l2 := by
    rw [set_operand, hdec, set_operand_list_append]
  refine ⟨?_, ?_, ?_⟩
  · refine ⟨d1 ++ { x with operand := stB.instructions.length } :: l2, ?_⟩
    rw [einstr, e1]
    simp [List.append_assoc]
  · simpa [set_operand_table] using tB
  · intro hc
    have hcB := cB hc
    rw [set_operand, hdec]
    refine cinv_patch ?_ ?_ hx
    · rw [← hdec]; exact hcB
    · rw [← hdec]

/-- The master lemma of the lowering walk: a successful compile_fn run
appends instructions, leaves the function table alone, and preserves the
compiler invariant. -/
theorem compile_fn_step :
    ∀ (fuel : Nat) (req : CReq) (st st2 : CState),
      compile_fn fuel req st = .ok st2 → cstep st st2 := by
  intro fuel
  induction fuel with
  | zero => intro req st st2 h; simp [compile_fn] at h
  | succ fuel ih =>
    intro req st st2 h
    cases req with
    | expr e =>
      cases e with
      | intLit sp v =>
        simp only [compile_fn, except_pure_ok] at h
        subst h
        exact cstep_emit (by intro hx; simp [is_jump] at hx) (by intro hx; cases hx)
          (by intro hx; simp [Instruction.has_operand, Opcode.has_operand] at hx)
      | boolLit sp b =>
        simp only [compile_fn, except_pure_ok] at h
        subst h
        exact cstep_emit (by intro hx; simp [is_jump] at hx) (by intro hx; cases hx)
          (by intro hx; simp [Instruction.has_operand, Opcode.has_operand] at hx)
      | strLit sp sv =>
        simp only [compile_fn, except_pure_ok] at h
        subst h
        have s1 : cstep st { st with string_constants := st.string_constants ++ [sv] } :=
          ⟨⟨[], by simp⟩, rfl, fun hc => hc⟩
        exact cstep_trans s1
          (cstep_emit (by intro hx; simp [is_jump] at hx) (by intro hx; cases hx)
            (by intro hx; simp [Instruction.has_operand, Opcode.has_operand] at hx))
      | ident sp name =>
        simp only [compile_fn, except_bind_ok2, except_bind_ok, except_pure_ok] at h
        obtain ⟨idx, hidx, h⟩ := h
        subst h
        exact cstep_emit (by intro hx; simp [is_jump] at hx) (by intro hx; cases hx)
          (by intro hx; simp [Instruction.has_operand, Opcode.has_operand] at hx)
      | binary sp op l r =>
        cases op
        case assignment =>
          simp only [compile_fn, except_bind_ok2, except_bind_ok, except_pure_ok] at h
          obtain ⟨st1, h1, h⟩ := h
          cases l <;> simp only [except_bind_ok2, except_bind_ok, except_pure_ok] at h <;>
            try exact Except.noConfusion h
          case ident spl name =>
            obtain ⟨idx, hidx, h⟩ := h
            subst h
            have sA := ih _ _ _ h1
            have sB : cstep st1 (emit ⟨.STORE, idx⟩ st1) :=
              cstep_emit (by intro hx; simp [is_jump] at hx) (by intro hx; cases hx)
                (by intro hx; simp [Instruction.has_operand, Opcode.has_operand] at hx)
            have sC : cstep (emit ⟨.STORE, idx⟩ st1)
                (emit ⟨.LOAD, idx⟩ (emit ⟨.STORE, idx⟩ st1)) :=
              cstep_emit (by intro hx; simp [is_jump] at hx) (by intro hx; cases hx)
                (by intro hx; simp [Instruction.has_operand, Opcode.has_operand] at hx)
            exact cstep_trans sA (cstep_trans sB sC)
        all_goals (
          simp only [compile_fn, except_bind_ok2, except_bind_ok, except_pure_ok] at h
          obtain ⟨st1, h1, stm, h2, h⟩ := h
          subst h
          exact cstep_trans (ih _ _ _ h1) (cstep_trans (ih _ _ _ h2)
            (cstep_emit (by intro hx; simp [is_jump] at hx) (by intro hx; cases hx)
              (fun _ => rfl))))
      | unary sp op o =>
        simp only [compile_fn, except_bind_ok2, except_bind_ok, except_pure_ok] at h
        obtain ⟨st1, h1, h⟩ := h
        cases op <;> (simp only [except_pure_ok] at h; subst h) <;>
          exact cstep_trans (ih _ _ _ h1)
            (cstep_emit (by intro hx; simp [is_jump] at hx) (by intro hx; cases hx)
              (fun _ => rfl))
      | call sp callee args =>
        simp only [compile_fn, except_bind_ok2, except_bind_ok, except_pure_ok] at h
        obtain ⟨st1, h1, h⟩ := h
        cases callee <;> simp only [except_bind_ok2, except_bind_ok, except_pure_ok] at h <;>
          try exact Except.noConfusion h
        case ident spc cname =>
          obtain ⟨idx, hidx, h⟩ := h
          subst h
          exact cstep_trans (ih _ _ _ h1)
            (cstep_emit (by intro hx; simp [is_jump] at hx) (by intro hx; cases hx)
              (by intro hx; simp [Instruction.has_operand, Opcode.has_operand] at hx))
      | borrow sp m o =>
        simp only [compile_fn, except_bind_ok2, except_bind_ok, except_pure_ok] at h
        obtain ⟨st1, h1, h⟩ := h
        subst h
        refine cstep_trans (ih _ _ _ h1) ?_
        cases m <;>
          exact cstep_emit (by intro hx; simp [is_jump] at hx) (by intro hx; cases hx)
            (fun _ => rfl)
    | argsRev l =>
      cases l with
      | nil =>
        simp only [compile_fn, except_pure_ok] at h
        subst h
        exact cstep_rfl _
      | cons a rest =>
        simp only [compile_fn, except_bind_ok2, except_bind_ok] at h
        obtain ⟨st1, h1, h2⟩ := h
        exact cstep_trans (ih _ _ _ h1) (ih _ _ _ h2)
    | stmt s =>
      cases s with
      | letS sp m name ty init =>
        simp only [compile_fn, except_bind_ok2, except_bind_ok, except_pure_ok] at h
        obtain ⟨st1, h1, h⟩ := h
        obtain ⟨idx, hidx, h⟩ := h
        subst h
        have hmid : cstep st1
            (if (st1.local_vars.any fun pr => pr.1 == name) = true then st1
             else { st1 with local_vars := assoc_set st1.local_vars name st1.next_local_index,
                             next_local_index := st1.next_local_index + 1 }) := by
          split <;> exact ⟨⟨[], by simp⟩, rfl, fun hc => hc⟩
        exact cstep_trans (ih _ _ _ h1) (cstep_trans hmid
          (cstep_emit (by intro hx; simp [is_jump] at hx) (by intro hx; cases hx)
            (by intro hx; simp [Instruction.has_operand, Opcode.has_operand] at hx)))
      | exprS sp e =>
        simp only [compile_fn, except_bind_ok2, except_bind_ok, except_pure_ok] at h
        obtain ⟨st1, h1, h⟩ := h
        subst h
        exact cstep_trans (ih _ _ _ h1)
          (cstep_emit (by intro hx; simp [is_jump] at hx) (by intro hx; cases hx)
            (fun _ => rfl))
      | block sp stmts =>
        simp only [compile_fn] at h
        exact ih _ _ _ h
      | whileS sp cond body =>
        simp only [compile_fn, except_bind_ok2, except_bind_ok, except_pure_ok] at h
        obtain ⟨st1, h1, st3, h3, h⟩ := h
        subst h
        have s1 : cstep st st1 := ih _ _ _ h1
        have s2 : cstep st1 (emit ⟨.JMP_IF_NOT, 0⟩ st1) :=
          cstep_emit (fun _ => by simp) (by intro hx; cases hx)
            (by intro hx; simp [Instruction.has_operand, Opcode.has_operand] at hx)
        have s3 : cstep (emit ⟨.JMP_IF_NOT, 0⟩ st1) st3 := ih _ _ _ h3
        obtain ⟨d3, e3⟩ := s3.1
        have hlen : st.instructions.length ≤ st3.instructions.length :=
          cstep_len (cstep_trans s1 (cstep_trans s2 s3))
        have s4 : cstep st3 (emit ⟨.JMP, st.instructions.length⟩ st3) := by
          refine cstep_emit (fun _ => ?_) (by intro hx; cases hx)
            (by intro hx; simp [Instruction.has_operand, Opcode.has_operand] at hx)
          show st.instructions.length ≤ st3.instructions.length + 1
          omega
        have hdec : (emit ⟨.JMP, st.instructions.length⟩ st3).instructions =
            st1.instructions ++ ⟨.JMP_IF_NOT, 0⟩ ::
              (d3 ++ [⟨.JMP, st.instructions.length⟩]) := by
          rw [emit_instructions, e3, emit_instructions]
          simp [List.append_assoc]
        have hAB : cstep st (emit ⟨.JMP, st.instructions.length⟩ st3) :=
          cstep_trans s1 (cstep_trans s2 (cstep_trans s3 s4))
        have := cstep_patch hAB hdec rfl s1.1
        simpa using this
      | ifS sp cond thenB elseB =>
        cases elseB with
        | none =>
          simp only [compile_fn, except_bind_ok2, except_bind_ok, except_pure_ok] at h
          obtain ⟨st1, h1, st3, h3, h⟩ := h
          subst h
          have s1 : cstep st st1 := ih _ _ _ h1
          have s2 : cstep st1 (emit ⟨.JMP_IF_NOT, 0⟩ st1) :=
            cstep_emit (fun _ => by simp) (by intro hx; cases hx)
              (by intro hx; simp [Instruction.has_operand, Opcode.has_operand] at hx)
          have s3 : cstep (emit ⟨.JMP_IF_NOT, 0⟩ st1) st3 := ih _ _ _ h3
          obtain ⟨d3, e3⟩ := s3.1
          have hdec : st3.instructions = st1.instructions ++ ⟨.JMP_IF_NOT, 0⟩ :: d3 := by
            rw [e3, emit_instructions]
            simp [List.append_assoc]
          have hAB : cstep st st3 := cstep_trans s1 (cstep_trans s2 s3)
          have := cstep_patch hAB hdec rfl s1.1
          simpa using this
        | some els =>
          simp only [compile_fn, except_bind_ok2, except_bind_ok, except_pure_ok] at h
          obtain ⟨st1, h1, st3, h3, st6, h6, h⟩ := h
          subst h
          have s1 : cstep st st1 := ih _ _ _ h1
          have s2 : cstep st1 (emit ⟨.JMP_IF_NOT, 0⟩ st1) :=
            cstep_emit (fun _ => by simp) (by intro hx; cases hx)
              (by intro hx; simp [Instruction.has_operand, Opcode.has_operand] at hx)
          have s3 : cstep (emit ⟨.JMP_IF_NOT, 0⟩ st1) st3 := ih _ _ _ h3
          obtain ⟨d3, e3⟩ := s3.1
          have s4 : cstep st3 (emit ⟨.JMP, 0⟩ st3) :=
            cstep_emit (fun _ => by simp) (by intro hx; cases hx)
              (by intro hx; simp [Instruction.has_operand, Opcode.has_operand] at hx)
          have hdec4 : (emit ⟨.JMP, 0⟩ st3).instructions =
              st1.instructions ++ ⟨.JMP_IF_NOT, 0⟩ :: (d3 ++ [⟨.JMP, 0⟩]) := by
            rw [emit_instructions, e3, emit_instructions]
            simp [List.append_assoc]
          have hAB4 : cstep st (emit ⟨.JMP, 0⟩ st3) :=
            cstep_trans s1 (cstep_trans s2 (cstep_trans s3 s4))
          have s5 : cstep st
              (set_operand (emit ⟨.JMP, 0⟩ st3) st1.instructions.length
                (emit ⟨.JMP, 0⟩ st3).instructions.length) :=
            cstep_patch hAB4 hdec4 rfl s1.1
          have s6 : cstep _ st6 := ih _ _ _ h6
          obtain ⟨d6, e6⟩ := s6.1
          have hdec6 : st6.instructions =
              (st1.instructions ++
                ⟨.JMP_IF_NOT, (emit ⟨.JMP, 0⟩ st3).instructions.length⟩ :: d3) ++
                ⟨.JMP, 0⟩ :: d6 := by
            rw [e6, set_operand, hdec4, set_operand_list_append]
            simp [List.append_assoc]
          have hidx : st3.instructions.length =
              (st1.instructions ++
                ⟨.JMP_IF_NOT, (emit ⟨.JMP, 0⟩ st3).instructions.length⟩ :: d3).length := by
            rw [e3, emit_instructions]
            simp
          have hAB6 : cstep st st6 := cstep_trans s5 s6
          have hpre6 : ∃ δ, st1.instructions ++
              ⟨.JMP_IF_NOT, (emit ⟨.JMP, 0⟩ st3).instructions.length⟩ :: d3 =
              st.instructions ++ δ := by
            obtain ⟨d1, e1⟩ := s1.1
            exact ⟨d1 ++ ⟨.JMP_IF_NOT, (emit ⟨.JMP, 0⟩ st3).instructions.length⟩ :: d3,
              by rw [e1]; simp [List.append_assoc]⟩
          have := cstep_patch hAB6 hdec6 rfl hpre6
          rw [← hidx] at this
          simpa using this
    | stmts l =>
      cases l with
      | nil =>
        simp only [compile_fn, except_pure_ok] at h
        subst h
        exact cstep_rfl _
      | cons sHead rest =>
        simp only [compile_fn, except_bind_ok2, except_bind_ok] at h
        obtain ⟨st1, h1, h2⟩ := h
        exact cstep_trans (ih _ _ _ h1) (ih _ _ _ h2)

/-! ## Function-level compiler lemmas -/

theorem compile_params_state : ∀ (ps : List Param) (st : CState),
    (compile_params ps st).instructions = st.instructions ∧
    (compile_params ps st).function_table = st.function_table := by
  intro ps
  induction ps with
  | nil => intro st; exact ⟨rfl, rfl⟩
  | cons p rest ih => intro st; simpa [compile_params] using ih _

theorem table_update_names {t t2 : FunctionTable} {idx : Nat} {u : FunctionInfo → FunctionInfo}
    (h : table_update t idx u = .ok t2) : t2.name_to_index = t.name_to_index := by
  rw [table_update] at h
  cases hg : t.functions.get? idx <;> rw [hg] at h
  · exact Except.noConfusion h
  · cases h; rfl

/-- A successful compile_function appends a nonempty chunk ending with
the RET the compiler adds, keeps name_to_index, and (given the
invariant) makes every jump operand strictly in-range. -/
theorem compile_function_step {fuel : Nat} {f : FunctionDecl} {st st2 : CState}
    (h : compile_function fuel f st = .ok st2) (hc : cinv st.instructions) :
    (∃ chunk, st2.instructions = st.instructions ++ chunk ∧ chunk ≠ [] ∧
      chunk.getLast? = some ⟨.RET, 0⟩) ∧
    cinv st2.instructions ∧
    jumps_lt st2.instructions st2.instructions.length ∧
    st2.function_table.name_to_index = st.function_table.name_to_index := by
  simp only [compile_function, except_bind_ok2, except_bind_ok, except_pure_ok] at h
  obtain ⟨stb, hb, idx, hidx, t2, ht2, h⟩ := h
  subst h
  obtain ⟨hpi, hpt⟩ := compile_params_state f.params
    { st with local_vars := [], next_local_index := 0 }
  have hstep : cstep (compile_params f.params
      { st with local_vars := [], next_local_index := 0 }) stb := by
    rw [compile_statement] at hb
    exact compile_fn_step _ _ _ _ hb
  obtain ⟨⟨db, eb⟩, tb, cb⟩ := hstep
  rw [hpi] at eb
  rw [hpt] at tb
  have hcb : cinv stb.instructions := by
    refine cb ?_
    rw [hpi]
    exact hc
  have eb2 : stb.instructions = st.instructions ++ db := eb
  -- the RET is always appended: stb never ends in RET_VAL
  have hret :
      (match stb.instructions.getLast? with
        | some ins => if ins.opcode = Opcode.RET_VAL then stb else emit ⟨.RET, 0⟩ stb
        | none => emit ⟨.RET, 0⟩ stb) = emit ⟨.RET, 0⟩ stb := by
    cases hg : stb.instructions.getLast? with
    | none => rfl
    | some ins =>
      have hmem : ins ∈ stb.instructions := by
        have h1 : ins ∈ stb.instructions.getLast? := by rw [Option.mem_def]; exact hg
        obtain ⟨hne, heq⟩ := List.mem_getLast?_eq_getLast h1
        rw [heq]
        exact List.getLast_mem hne
      have : ins.opcode ≠ Opcode.RET_VAL := hcb.2.1 ins hmem
      simp [this]
  rw [hret] at hidx ht2 ⊢
  refine ⟨⟨db ++ [⟨.RET, 0⟩], ?_, by simp, by simp⟩, ?_, ?_, ?_⟩
  · rw [emit_instructions, eb]
    simp [List.append_assoc]
  · show cinv (emit ⟨.RET, 0⟩ stb).instructions
    rw [emit_instructions]
    exact cinv_snoc hcb (by intro hx; simp [is_jump] at hx) (by intro hx; cases hx)
      (fun _ => rfl)
  · show jumps_lt (emit ⟨.RET, 0⟩ stb).instructions (emit ⟨.RET, 0⟩ stb).instructions.length
    rw [emit_instructions]
    intro i hi hj
    rcases List.mem_append.mp hi with hm | hm
    · have := hcb.1 i hm hj
      simp only [List.length_append, List.length_cons, List.length_nil]
      omega
    · simp only [List.mem_singleton] at hm
      subst hm
      simp [is_jump] at hj
  · show t2.name_to_index = st.function_table.name_to_index
    rw [table_update_names ht2]
    show stb.function_table.name_to_index = st.function_table.name_to_index
    rw [tb]

/-- Pass 2 over a function list: per-function chunks, each nonempty and
RET-terminated; jump operands end strictly in range; name_to_index is
untouched. -/
theorem compile_functions_step {fuel : Nat} :
    ∀ (items : List FunctionDecl) (st st2 : CState),
      compile_functions fuel items st = .ok st2 →
      cinv st.instructions →
      jumps_lt st.instructions st.instructions.length →
      (∃ chunks : List (List Instruction),
        st2.instructions = st.instructions ++ chunks.flatten ∧
        chunks.length = items.length ∧
        ∀ c ∈ chunks, c ≠ [] ∧ c.getLast? = some ⟨.RET, 0⟩) ∧
      cinv st2.instructions ∧
      jumps_lt st2.instructions st2.instructions.length ∧
      st2.function_table.name_to_index = st.function_table.name_to_index := by
  intro items
  induction items with
  | nil =>
    intro st st2 h hc hlt
    simp only [compile_functions, except_pure_ok] at h
    subst h
    exact ⟨⟨[], by simp, rfl, by simp⟩, hc, hlt, rfl⟩
  | cons f rest ih =>
    intro st st2 h hc hlt
    simp only [compile_functions, except_bind_ok2, except_bind_ok, except_pure_ok] at h
    obtain ⟨st1, h1, idx, hidx, t2, ht2, h⟩ := h
    obtain ⟨⟨chunk, echunk, hne, hlast⟩, hc1, hlt1, hn1⟩ := compile_function_step h1 hc
    have hmid : cinv ({ st1 with function_table := t2 } : CState).instructions := hc1
    have hmidlt : jumps_lt ({ st1 with function_table := t2 } : CState).instructions
        ({ st1 with function_table := t2 } : CState).instructions.length := hlt1
    obtain ⟨⟨chunks, echunks, hlen, hgood⟩, hc2, hlt2, hn2⟩ := ih _ _ h hmid hmidlt
    refine ⟨⟨chunk :: chunks, ?_, by simp [hlen], ?_⟩, hc2, hlt2, ?_⟩
    · show st2.instructions = st.instructions ++ (chunk ++ chunks.flatten)
      rw [echunks]
      show st1.instructions ++ chunks.flatten = st.instructions ++ (chunk ++ chunks.flatten)
      rw [echunk, List.append_assoc]
    · intro c hcmem
      rcases List.mem_cons.mp hcmem with hm | hm
      · subst hm; exact ⟨hne, hlast⟩
      · exact hgood c hm
    · rw [hn2]
      show t2.name_to_index = st.function_table.name_to_index
      rw [table_update_names ht2, hn1]

theorem cinv_nil : cinv [] :=
  ⟨fun i hi => absurd hi (by simp), fun i hi => absurd hi (by simp),
   fun i hi => absurd hi (by simp)⟩

theorem jumps_lt_nil : jumps_lt [] 0 := fun i hi => absurd hi (by simp)

/-- C10: in every successfully compiled program, each JMP / JMP_IF /
JMP_IF_NOT operand is strictly below the number of emitted instructions,
RET_VAL is never emitted, and the output decomposes into one nonempty
chunk per declared function, each ending in the appended RET. -/
theorem c10_jumps_in_range_ret_terminated :
    ∀ (fuel : Nat) (p : Program) (st2 : CState), compile fuel p = .ok st2 →
      jumps_lt st2.instructions st2.instructions.length ∧
      no_ret_val st2.instructions ∧
      ∃ chunks : List (List Instruction),
        st2.instructions = chunks.flatten ∧
        chunks.length = p.items.length ∧
        ∀ c ∈ chunks, c ≠ [] ∧ c.getLast? = some ⟨.RET, 0⟩ := by
  intro fuel p st2 h
  simp only [compile] at h
  obtain ⟨⟨chunks, echunks, hlen, hgood⟩, hc, hlt, _⟩ :=
    compile_functions_step p.items _ _ h cinv_nil jumps_lt_nil
  refine ⟨hlt, hc.2.1, chunks, ?_, hlen, hgood⟩
  simpa using echunks

/-- Witness for C10 at the compiled c9w_src program. -/
theorem c10_witness :
    jumps_lt c9w_cstate.instructions c9w_cstate.instructions.length ∧
    no_ret_val c9w_cstate.instructions ∧
    ∃ chunks : List (List Instruction),
      c9w_cstate.instructions = chunks.flatten ∧
      chunks.length = c9w_prog.items.length ∧
      ∀ c ∈ chunks, c ≠ [] ∧ c.getLast? = some ⟨.RET, 0⟩ :=
  c10_jumps_in_range_ret_terminated 2000 c9w_prog c9w_cstate (by rfl)

/-- A statement list ending in an ExprStmt lowers to code ending in
POP. -/
theorem stmts_last_pop :
    ∀ (l : List Stmt) (fuel : Nat) (st st2 : CState) (sp2 : Span) (e : Expr),
      compile_fn fuel (.stmts l) st = .ok st2 → l.getLast? = some (.exprS sp2 e) →
      ∃ l0, st2.instructions = l0 ++ [⟨.POP, 0⟩] := by
  intro l
  induction l with
  | nil => intro fuel st st2 sp2 e h hl; simp at hl
  | cons sH rest ih =>
    intro fuel st st2 sp2 e h hl
    cases fuel with
    | zero => simp [compile_fn] at h
    | succ fuel =>
      simp only [compile_fn, except_bind_ok2, except_bind_ok] at h
      obtain ⟨st1, h1, h2⟩ := h
      cases rest with
      | nil =>
        have hs : sH = .exprS sp2 e := by simpa using hl
        subst hs
        cases fuel with
        | zero => simp [compile_fn] at h1
        | succ fuel2 =>
          simp only [compile_fn, except_bind_ok2, except_bind_ok, except_pure_ok] at h1 h2
          obtain ⟨stm, hm, h1⟩ := h1
          subst h1
          subst h2
          exact ⟨stm.instructions, rfl⟩
      | cons s2 rest2 =>
        have : (s2 :: rest2).getLast? = some (Stmt.exprS sp2 e) := by
          rw [← List.getLast?_cons_cons]
          exact hl
        exact ih fuel st1 st2 sp2 e h2 this

/-- C5: an expression statement lowers to the code of the expression
immediately followed by POP, and when it is the block-final statement
of a function body, the POP lands directly before the function's
terminating RET. -/
theorem c5_exprstmt_pop :
    (∀ (fuel : Nat) (sp : Span) (e : Expr) (st st2 : CState),
      compile_fn (fuel + 1) (.stmt (.exprS sp e)) st = .ok st2 →
      ∃ stm, compile_fn fuel (.expr e) st = .ok stm ∧
        st2 = emit ⟨.POP, 0⟩ stm ∧
        st2.instructions = stm.instructions ++ [⟨.POP, 0⟩]) ∧
    (∀ (fuel : Nat) (f : FunctionDecl) (st st2 : CState) (sp : Span)
        (stmts : List Stmt) (sp2 : Span) (e : Expr),
      f.body = .block sp stmts → stmts.getLast? = some (.exprS sp2 e) →
      compile_function fuel f st = .ok st2 →
      ∃ l0, st2.instructions = l0 ++ [⟨.POP, 0⟩, ⟨.RET, 0⟩]) := by
  constructor
  · intro fuel sp e st st2 h
    simp only [compile_fn, except_bind_ok2, except_bind_ok, except_pure_ok] at h
    obtain ⟨stm, hm, h⟩ := h
    subst h
    exact ⟨stm, hm, rfl, rfl⟩
  · intro fuel f st st2 sp stmts sp2 e hbody hlast h
    simp only [compile_function, except_bind_ok2, except_bind_ok, except_pure_ok] at h
    obtain ⟨stb, hb, idx, hidx, t2, ht2, h⟩ := h
    subst h
    rw [compile_statement, hbody] at hb
    cases fuel with
    | zero => simp [compile_fn] at hb
    | succ fuel =>
      simp only [compile_fn] at hb
      obtain ⟨l0, hl0⟩ := stmts_last_pop stmts fuel _ stb sp2 e hb hlast
      have hret :
          (match stb.instructions.getLast? with
            | some ins => if ins.opcode = Opcode.RET_VAL then stb
                          else emit ⟨.RET, 0⟩ stb
            | none => emit ⟨.RET, 0⟩ stb) = emit ⟨.RET, 0⟩ stb := by
        rw [hl0, List.getLast?_concat]
        simp
      rw [hret] at hidx ht2 ⊢
      refine ⟨l0, ?_⟩
      show (emit ⟨.RET, 0⟩ stb).instructions = l0 ++ [⟨.POP, 0⟩, ⟨.RET, 0⟩]
      rw [emit_instructions, hl0]
      simp

/-- Witness for C5. -/
theorem c5_witness :
    (∃ stm, compile_fn 1 (.expr (.intLit ⟨0, 0⟩ 1)) cstate0 = .ok stm ∧
      emit ⟨.POP, 0⟩ (emit ⟨.PUSH_I32, 1⟩ cstate0) = emit ⟨.POP, 0⟩ stm ∧
      (emit ⟨.POP, 0⟩ (emit ⟨.PUSH_I32, 1⟩ cstate0)).instructions =
        stm.instructions ++ [⟨.POP, 0⟩]) ∧
    (∃ l0, c5w_res.instructions = l0 ++ [⟨.POP, 0⟩, ⟨.RET, 0⟩]) :=
  ⟨c5_exprstmt_pop.1 1 ⟨0, 0⟩ (.intLit ⟨0, 0⟩ 1) cstate0
      (emit ⟨.POP, 0⟩ (emit ⟨.PUSH_I32, 1⟩ cstate0)) (by rfl),
   c5_exprstmt_pop.2 10 c5w_fn c5w_st c5w_res ⟨0, 0⟩
      [.exprS ⟨0, 0⟩ (.intLit ⟨0, 0⟩ 1)] ⟨0, 0⟩ (.intLit ⟨0, 0⟩ 1)
      (by rfl) (by rfl) (by rfl)⟩

/-- C2: the program `fn main(){ let mut x: i32 = 10; while (x>0){ x = x - 1; } }`
parses, passes type checking, and compiles to exactly
PUSH_I32 10; STORE 0; LOAD 0; PUSH_I32 0; GT_I32; JMP_IF_NOT 13; LOAD 0;
PUSH_I32 1; SUB_I32; STORE 0; LOAD 0; POP; JMP 2; RET, the jump operands
being absolute instruction indices (13 and 2). -/
theorem c2_while_lowering :
    (parse_program c2_src).map
        (fun p => (check_program (parse_fuel c2_src.data) p).map (fun r => r.1)) =
      .ok (some true) ∧
    pipeline_instructions c2_src =
      .ok [⟨.PUSH_I32, 10⟩, ⟨.STORE, 0⟩, ⟨.LOAD, 0⟩, ⟨.PUSH_I32, 0⟩, ⟨.GT_I32, 0⟩,
           ⟨.JMP_IF_NOT, 13⟩, ⟨.LOAD, 0⟩, ⟨.PUSH_I32, 1⟩, ⟨.SUB_I32, 0⟩, ⟨.STORE, 0⟩,
           ⟨.LOAD, 0⟩, ⟨.POP, 0⟩, ⟨.JMP, 2⟩, ⟨.RET, 0⟩] :=
  ⟨rfl, rfl⟩

/-! ## Function-table indexing lemmas (C6) -/

theorem find_map_set_ne (k : String) (v : Nat) (name : String) (h : k ≠ name) :
    ∀ (l : List (String × Nat)),
      (l.map (fun p => if p.1 == k then (k, v) else p)).find? (fun p => p.1 == name) =
      l.find? (fun p => p.1 == name) := by
  intro l
  induction l with
  | nil => rfl
  | cons p rest ih =>
    by_cases hp : p.1 = k
    · rw [List.map_cons, if_pos (by simp [hp])]
      rw [List.find?_cons_of_neg _ (by simp [h]), List.find?_cons_of_neg _ (by simp [hp, h])]
      exact ih
    · rw [List.map_cons, if_neg (by simp [hp])]
      by_cases hn : p.1 = name
      · rw [List.find?_cons_of_pos _ (by simp [hn]), List.find?_cons_of_pos _ (by simp [hn])]
      · rw [List.find?_cons_of_neg _ (by simp [hn]), List.find?_cons_of_neg _ (by simp [hn])]
        exact ih

theorem find_assoc_set_ne (l : List (String × Nat)) (k : String) (v : Nat) (name : String)
    (h : k ≠ name) :
    (assoc_set l k v).find? (fun p => p.1 == name) = l.find? (fun p => p.1 == name) := by
  rw [assoc_set]
  split
  · exact find_map_set_ne k v name h l
  · rw [List.find?_append]
    have hkv : (((k, v) : String × Nat).1 == name) = false := by simp [h]
    cases hf : l.find? (fun p => p.1 == name)
    · simp [List.find?, hkv]
    · simp

theorem find_map_set_self (k : String) (v : Nat) :
    ∀ (l : List (String × Nat)), l.any (fun p => p.1 == k) = true →
      (l.map (fun p => if p.1 == k then (k, v) else p)).find? (fun p => p.1 == k) =
        some (k, v) := by
  intro l
  induction l with
  | nil => intro h; simp at h
  | cons p rest ih =>
    intro hany
    by_cases hp : p.1 = k
    · rw [List.map_cons, if_pos (by simp [hp])]
      rw [List.find?_cons_of_pos _ (by simp)]
    · rw [List.map_cons, if_neg (by simp [hp])]
      rw [List.find?_cons_of_neg _ (by simp [hp])]
      refine ih ?_
      simp only [List.any_cons] at hany
      rcases Bool.or_eq_true_iff.mp hany with hh | hh
      · exact absurd (by simpa using hh) hp
      · exact hh

theorem find_assoc_set_self (l : List (String × Nat)) (k : String) (v : Nat) :
    (assoc_set l k v).find? (fun p => p.1 == k) = some (k, v) := by
  rw [assoc_set]
  split
  · exact find_map_set_self k v l (by assumption)
  · rename_i hany
    have hnone : l.find? (fun p => p.1 == k) = none := by
      rw [List.find?_eq_none]
      intro x hx hbeq
      exact hany (List.any_eq_true.mpr ⟨x, hx, hbeq⟩)
    rw [List.find?_append, hnone]
    simp [List.find?]

/-- Names absent from `items` keep their pass-1 binding. -/
theorem pass1_find_fresh :
    ∀ (items : List FunctionDecl) (t : FunctionTable) (name : String),
      (∀ g ∈ items, g.name ≠ name) →
      (pass1 items t).name_to_index.find? (fun p => p.1 == name) =
        t.name_to_index.find? (fun p => p.1 == name) := by
  intro items
  induction items with
  | nil => intro t name _; rfl
  | cons g rest ih =>
    intro t name hfresh
    rw [pass1, ih _ name (fun g2 h2 => hfresh g2 (List.mem_cons_of_mem _ h2))]
    exact find_assoc_set_ne _ _ _ _ (hfresh g (List.mem_cons_self _ _))

/-- Pass 1 indexes a uniquely named function by its declaration
position (offset by the functions already in the table). -/
theorem pass1_index :
    ∀ (items : List FunctionDecl) (t : FunctionTable) (i : Nat) (f : FunctionDecl),
      items.get? i = some f →
      (∀ j g, items.get? j = some g → g.name = f.name → j = i) →
      ft_get_function_index f.name (pass1 items t) = .ok (t.functions.length + i) := by
  intro items
  induction items with
  | nil => intro t i f h _; simp at h
  | cons g rest ih =>
    intro t i f hget huniq
    cases i with
    | zero =>
      have hg : g = f := by simpa using hget
      subst hg
      have hfresh : ∀ g2 ∈ rest, g2.name ≠ g.name := by
        intro g2 hm heq
        obtain ⟨j, hj⟩ := List.mem_iff_get?.mp hm
        have := huniq (j + 1) g2 (by simpa using hj) heq
        exact Nat.succ_ne_zero j this
      rw [pass1, ft_get_function_index, pass1_find_fresh rest _ g.name hfresh]
      have hni : (add_function g 0 t).name_to_index =
          assoc_set t.name_to_index g.name t.functions.length := rfl
      rw [hni, find_assoc_set_self]
      rfl
    | succ j =>
      have hget2 : rest.get? j = some f := by simpa using hget
      have huniq2 : ∀ j2 g2, rest.get? j2 = some g2 → g2.name = f.name → j2 = j := by
        intro j2 g2 hj2 heq
        have := huniq (j2 + 1) g2 (by simpa using hj2) heq
        omega
      have := ih (add_function g 0 t) j f hget2 huniq2
      rw [pass1, this]
      show Except.ok ((add_function g 0 t).functions.length + j) = _
      rw [add_function]
      simp only [List.length_append, List.length_cons, List.length_nil]
      congr 1
      omega

theorem compile_function_names {fuel : Nat} {f : FunctionDecl} {st st2 : CState}
    (h : compile_function fuel f st = .ok st2) :
    st2.function_table.name_to_index = st.function_table.name_to_index := by
  simp only [compile_function, except_bind_ok2, except_bind_ok, except_pure_ok] at h
  obtain ⟨stb, hb, idx, hidx, t2, ht2, h⟩ := h
  subst h
  have hb2 : cstep (compile_params f.params
      { st with local_vars := [], next_local_index := 0 }) stb := by
    rw [compile_statement] at hb
    exact compile_fn_step _ _ _ _ hb
  obtain ⟨hpi, hpt⟩ := compile_params_state f.params
    { st with local_vars := [], next_local_index := 0 }
  have htb : stb.function_table = st.function_table := by
    rw [hb2.2.1, hpt]
  have hmatch : (match stb.instructions.getLast? with
      | some ins => if ins.opcode = Opcode.RET_VAL then stb else emit ⟨.RET, 0⟩ stb
      | none => emit ⟨.RET, 0⟩ stb).function_table = stb.function_table := by
    cases stb.instructions.getLast? with
    | none => rfl
    | some ins =>
      dsimp only
      split <;> rfl
  rw [hmatch] at ht2
  show t2.name_to_index = st.function_table.name_to_index
  rw [table_update_names ht2, htb]

theorem compile_functions_names {fuel : Nat} :
    ∀ (items : List FunctionDecl) (st st2 : CState),
      compile_functions fuel items st = .ok st2 →
      st2.function_table.name_to_index = st.function_table.name_to_index := by
  intro items
  induction items with
  | nil =>
    intro st st2 h
    simp only [compile_functions, except_pure_ok] at h
    subst h; rfl
  | cons f rest ih =>
    intro st st2 h
    simp only [compile_functions, except_bind_ok2, except_bind_ok, except_pure_ok] at h
    obtain ⟨st1, h1, idx, hidx, t2, ht2, h⟩ := h
    rw [ih _ _ h]
    show t2.name_to_index = st.function_table.name_to_index
    rw [table_update_names ht2, compile_function_names h1]

/-- C6: a call lowers its arguments in reverse source order (the
argument loop compiles the tail before the head), then emits CALL with
the callee's function-table index; pass 1 indexes functions in
declaration order and pass 2 never touches name_to_index; the add/main
program of spec §8 row 5 lowers accordingly. -/
theorem c6_call_reverse_args_decl_order :
    (∀ (fuel : Nat) (sp : Span) (callee : Expr) (args : List Expr) (st st2 : CState),
      compile_fn (fuel + 1) (.expr (.call sp callee args)) st = .ok st2 →
      ∃ stargs spc cname idx, callee = .ident spc cname ∧
        compile_fn fuel (.argsRev args) st = .ok stargs ∧
        ft_get_function_index cname stargs.function_table = .ok idx ∧
        st2 = emit ⟨.CALL, idx⟩ stargs) ∧
    (∀ (fuel : Nat) (a : Expr) (rest : List Expr) (st st2 : CState),
      compile_fn (fuel + 1) (.argsRev (a :: rest)) st = .ok st2 →
      ∃ stm, compile_fn fuel (.argsRev rest) st = .ok stm ∧
        compile_fn fuel (.expr a) stm = .ok st2) ∧
    (∀ (items : List FunctionDecl) (i : Nat) (f : FunctionDecl),
      items.get? i = some f →
      (∀ j g, items.get? j = some g → g.name = f.name → j = i) →
      ft_get_function_index f.name (pass1 items ⟨[], []⟩) = .ok i) ∧
    (∀ (fuel : Nat) (items : List FunctionDecl) (st st2 : CState),
      compile_functions fuel items st = .ok st2 →
      st2.function_table.name_to_index = st.function_table.name_to_index) ∧
    pipeline_instructions c6_src =
      .ok [⟨.LOAD, 0⟩, ⟨.LOAD, 1⟩, ⟨.ADD_I32, 0⟩, ⟨.POP, 0⟩, ⟨.RET, 0⟩,
           ⟨.PUSH_I32, 2⟩, ⟨.PUSH_I32, 1⟩, ⟨.CALL, 0⟩, ⟨.STORE, 0⟩, ⟨.RET, 0⟩] := by
  refine ⟨?_, ?_, ?_, ?_, rfl⟩
  · intro fuel sp callee args st st2 h
    simp only [compile_fn, except_bind_ok2, except_bind_ok, except_pure_ok] at h
    obtain ⟨stargs, hargs, h⟩ := h
    cases callee <;> simp only [except_bind_ok2, except_bind_ok, except_pure_ok] at h <;>
      try exact Except.noConfusion h
    case ident spc cname =>
      obtain ⟨idx, hidx, h⟩ := h
      subst h
      exact ⟨stargs, spc, cname, idx, rfl, hargs, hidx, rfl⟩
  · intro fuel a rest st st2 h
    simp only [compile_fn, except_bind_ok2, except_bind_ok] at h
    obtain ⟨stm, hm, h⟩ := h
    exact ⟨stm, hm, h⟩
  · intro items i f hget huniq
    simpa using pass1_index items ⟨[], []⟩ i f hget huniq
  · intro fuel items st st2 h
    exact compile_functions_names items st st2 h

/-- Witness for C6. -/
theorem c6_witness :
    (∃ stargs spc cname idx, (Expr.ident ⟨0, 0⟩ "add2") = .ident spc cname ∧
      compile_fn 1 (.argsRev []) c6w_st = .ok stargs ∧
      ft_get_function_index cname stargs.function_table = .ok idx ∧
      emit ⟨.CALL, 0⟩ c6w_st = emit ⟨.CALL, idx⟩ stargs) ∧
    (∃ stm, compile_fn 1 (.argsRev []) cstate0 = .ok stm ∧
      compile_fn 1 (.expr (.intLit ⟨0, 0⟩ 7)) stm = .ok (emit ⟨.PUSH_I32, 7⟩ cstate0)) ∧
    ft_get_function_index c6w_fn.name (pass1 [c6w_fn] ⟨[], []⟩) = .ok 0 ∧
    c6w_res.function_table.name_to_index = c6w_st.function_table.name_to_index := by
  refine ⟨?_, ?_, ?_, ?_⟩
  · exact c6_call_reverse_args_decl_order.1 1 ⟨0, 0⟩ (.ident ⟨0, 0⟩ "add2") [] c6w_st
      (emit ⟨.CALL, 0⟩ c6w_st) (by rfl)
  · exact c6_call_reverse_args_decl_order.2.1 1 (.intLit ⟨0, 0⟩ 7) [] cstate0
      (emit ⟨.PUSH_I32, 7⟩ cstate0) (by rfl)
  · exact c6_call_reverse_args_decl_order.2.2.1 [c6w_fn] 0 c6w_fn (by rfl)
      (by
        intro j g hj heq
        cases j with
        | zero => rfl
        | succ jj => simp at hj)
  · exact c6_call_reverse_args_decl_order.2.2.2.1 10 [c6w_fn] c6w_st c6w_res (by rfl)

/-! ## C4: stored types of nested references -/

/-- C4: counter-evidence.  The program c4_src
(`fn main(){ let x: i32 = 0; let y: &&i32 = &&x; y; let z: i32 = 0; }`)
passes check_program, yet after its first two let statements the scope
frame stores y at the type Ref⟨34,39⟩(Ref⟨35,39⟩(null)) — the inner
Ref's base_type is null, not the I32 demanded by the claim's
"non-null base_type at arbitrary nesting depth" / "the stored type of y
is the full Ref(Ref(I32))".  The two-level manual copy in the let-stmt
and lookup paths (type_checker.cpp:70-73, 480-484) drops the base's
base, although a correct deep Type::clone exists. -/
theorem c4_nested_ref_stored_with_null_base :
    (check_program (parse_fuel c4_src.data) c4_prog).map (fun r => r.1) = some true ∧
    (check_fn c4_prog.items 100 (.stmts (c4_stmts.take 2)) (enter_scope ⟨[], []⟩)).map
        (fun r => r.2.2.scopes) =
      some [[("y", ⟨.mk .Ref (some (.mk .Ref none ⟨35, 39⟩)) ⟨34, 39⟩, false⟩),
             ("x", ⟨.mk .I32 none ⟨18, 21⟩, false⟩)]] :=
  ⟨rfl, rfl⟩

/-! ## Output round trip (claim C9) -/

theorem digit_char_is_digit : ∀ d, d < 10 → is_digit_char (digit_char d) = true := by
  decide

theorem digit_char_not_space : ∀ d, d < 10 → is_space_char (digit_char d) = false := by
  decide

theorem digit_char_not_nl : ∀ d, d < 10 → digit_char d ≠ Char.ofNat 10 := by
  decide

theorem digit_char_toNat : ∀ d, d < 10 → (digit_char d).toNat = 48 + d := by
  decide

theorem nat_decimal_tok (n : Nat) :
    nat_decimal n ≠ [] ∧
    (∀ c ∈ nat_decimal n, is_digit_char c = true ∧ is_space_char c = false ∧
      c ≠ Char.ofNat 10) := by
  by_cases h0 : n = 0
  · subst h0
    constructor
    · decide
    · intro c hc
      have : c = Char.ofNat 48 := by simpa [nat_decimal] using hc
      subst this
      decide
  · unfold nat_decimal
    rw [if_neg h0]
    constructor
    · simp [Nat.digits_ne_nil_iff_ne_zero, h0]
    · intro c hc
      simp only [List.mem_map, List.mem_reverse] at hc
      obtain ⟨d, hd, rfl⟩ := hc
      have hlt : d < 10 := Nat.digits_lt_base (by norm_num) hd
      exact ⟨digit_char_is_digit d hlt, digit_char_not_space d hlt,
        digit_char_not_nl d hlt⟩

theorem foldl_rev_ofDigits (L : List Nat) :
    L.reverse.foldl (fun a d => a * 10 + d) 0 = Nat.ofDigits 10 L := by
  induction L with
  | nil => rfl
  | cons d L ih =>
    rw [List.reverse_cons, List.foldl_append, ih]
    simp [Nat.ofDigits_cons]
    ring

theorem foldl_map_digit_chars :
    ∀ (L : List Nat) (a : Nat), (∀ d ∈ L, d < 10) →
      (L.map digit_char).foldl (fun acc c => acc * 10 + (c.toNat - 48)) a =
        L.foldl (fun acc d => acc * 10 + d) a := by
  intro L
  induction L with
  | nil => intro a h; rfl
  | cons d L ih =>
    intro a h
    simp only [List.map_cons, List.foldl_cons]
    rw [digit_char_toNat d (h d (by simp)), Nat.add_sub_cancel_left]
    exact ih _ (fun x hx => h x (by simp [hx]))

theorem dec_of_nat_decimal (n : Nat) : dec_of_chars (nat_decimal n) = some n := by
  by_cases h0 : n = 0
  · subst h0; rfl
  · have hf := nat_decimal_tok n
    have hne : (nat_decimal n).isEmpty = false := by
      cases hcs : nat_decimal n with
      | nil => exact absurd hcs hf.1
      | cons _ _ => rfl
    have hall : (nat_decimal n).all is_digit_char = true := by
      rw [List.all_eq_true]
      intro c hc
      exact (hf.2 c hc).1
    unfold dec_of_chars
    rw [hne, hall]
    simp only [Bool.not_true, Bool.or_false, Bool.false_eq_true, if_false]
    unfold nat_decimal
    rw [if_neg h0]
    rw [foldl_map_digit_chars _ 0
      (fun d hd => Nat.digits_lt_base (by norm_num) (List.mem_reverse.mp hd))]
    rw [foldl_rev_ofDigits, Nat.ofDigits_digits]

/-! opcode-name facts -/

theorem opcode_name_roundtrip (op : Opcode) :
    opcode_of_name (opcode_to_string op).data = some op := by
  cases op <;> rfl

theorem opcode_name_tok (op : Opcode) :
    (opcode_to_string op).data ≠ [] ∧
    (∀ c ∈ (opcode_to_string op).data, is_space_char c = false ∧
      c ≠ Char.ofNat 10) := by
  cases op <;> decide

/-! tokenizer facts -/

theorem words_of_space (u : List Char) : words_of (' ' :: u) = words_of u := by
  have h : is_space_char ' ' = true := rfl
  rw [words_of.eq_def]
  simp [h]

theorem words_of_token :
    ∀ (t : List Char), t ≠ [] → (∀ c ∈ t, is_space_char c = false) →
      words_of t = [t] := by
  intro t
  induction t with
  | nil => intro h; exact absurd rfl h
  | cons c cs ih =>
    intro _ hs
    have hc : is_space_char c = false := hs c (by simp)
    cases cs with
    | nil =>
      conv_lhs => rw [words_of]
      rw [hc]
      simp
    | cons c2 rest =>
      have hc2 : is_space_char c2 = false := hs c2 (by simp)
      have ihr := ih (by simp) (fun x hx => hs x (by simp [hx]))
      conv_lhs => rw [words_of]
      rw [hc]
      simp only [Bool.false_eq_true, if_false]
      rw [hc2]
      simp only [Bool.false_eq_true, if_false]
      rw [ihr]

theorem words_of_sep :
    ∀ (t u : List Char), t ≠ [] → (∀ c ∈ t, is_space_char c = false) →
      words_of (t ++ ' ' :: u) = t :: words_of u := by
  intro t
  induction t with
  | nil => intro u h; exact absurd rfl h
  | cons c cs ih =>
    intro u _ hs
    have hc : is_space_char c = false := hs c (by simp)
    cases cs with
    | nil =>
      show words_of (c :: ' ' :: u) = [c] :: words_of u
      conv_lhs => rw [words_of]
      rw [hc]
      simp only [Bool.false_eq_true, if_false]
      rw [show is_space_char ' ' = true from rfl]
      simp only [if_true]
      rw [words_of_space]
    | cons c2 rest =>
      have hc2 : is_space_char c2 = false := hs c2 (by simp)
      have ihr := ih u (by simp) (fun x hx => hs x (by simp [hx]))
      show words_of (c :: (c2 :: rest ++ ' ' :: u)) = (c :: c2 :: rest) :: words_of u
      rw [words_of.eq_def]
      simp only [hc, Bool.false_eq_true, if_false, List.cons_append]
      rw [hc2]
      simp only [Bool.false_eq_true, if_false]
      rw [List.cons_append] at ihr
      rw [ihr]

/-! line-level round trip -/

theorem parse_ns_line_instr (i : Instruction)
    (hz : i.has_operand = false → i.operand = 0) :
    parse_ns_line ((opcode_to_string i.opcode).data ++
      (if i.has_operand then ' ' :: nat_decimal i.operand else [])) = some i := by
  obtain ⟨hN, hT⟩ := opcode_name_tok i.opcode
  rcases i with ⟨op0, v⟩
  simp only [Instruction.has_operand] at hz ⊢
  cases hop : op0.has_operand with
  | false =>
    simp only [Bool.false_eq_true, if_false, List.append_nil]
    unfold parse_ns_line
    rw [words_of_token _ hN (fun c hc => (hT c hc).1)]
    simp [opcode_name_roundtrip, hop, hz hop]
  | true =>
    simp only [if_true]
    unfold parse_ns_line
    rw [words_of_sep _ _ hN (fun c hc => (hT c hc).1)]
    rw [words_of_token (nat_decimal v) (nat_decimal_tok v).1
      (fun c hc => ((nat_decimal_tok v).2 c hc).2.1)]
    simp [opcode_name_roundtrip, hop, dec_of_nat_decimal]

/-! stream-level round trip -/

theorem split_lines_append :
    ∀ (body rest : List Char), (∀ c ∈ body, c ≠ Char.ofNat 10) →
      split_lines (body ++ Char.ofNat 10 :: rest) = body :: split_lines rest := by
  intro body
  induction body with
  | nil =>
    intro rest _
    show split_lines (Char.ofNat 10 :: rest) = [] :: split_lines rest
    rw [split_lines.eq_def]
    simp
  | cons c cs ih =>
    intro rest h
    have hc : c ≠ Char.ofNat 10 := h c (by simp)
    show split_lines (c :: (cs ++ Char.ofNat 10 :: rest)) = (c :: cs) :: split_lines rest
    rw [split_lines.eq_def]
    simp only [show (c == Char.ofNat 10) = false from by simpa using hc,
      Bool.false_eq_true, if_false]
    rw [ih rest (fun x hx => h x (by simp [hx]))]

theorem instr_line_no_nl (i : Instruction) :
    ∀ c ∈ (opcode_to_string i.opcode).data ++
      (if i.has_operand then ' ' :: nat_decimal i.operand else []),
      c ≠ Char.ofNat 10 := by
  intro c hc
  rw [List.mem_append] at hc
  rcases hc with hc | hc
  · exact ((opcode_name_tok i.opcode).2 c hc).2
  · cases hop : i.has_operand with
    | false => rw [hop] at hc; simp at hc
    | true =>
      rw [hop] at hc
      simp only [if_true, List.mem_cons] at hc
      rcases hc with rfl | hc
      · decide
      · exact ((nat_decimal_tok i.operand).2 c hc).2.2

theorem parse_ns_output : ∀ (l : List Instruction), bare_zero l →
    parse_ns (ns_output l) = some l := by
  intro l
  induction l with
  | nil => intro _; rfl
  | cons i rest ih =>
    intro hz
    have hzi : i.has_operand = false → i.operand = 0 := hz i (by simp)
    have hzr : bare_zero rest := fun j hj => hz j (by simp [hj])
    have hline : ns_output (i :: rest) =
        ((opcode_to_string i.opcode).data ++
          (if i.has_operand then ' ' :: nat_decimal i.operand else [])) ++
          Char.ofNat 10 :: ns_output rest := by
      simp [ns_output, instr_line]
    unfold parse_ns
    rw [hline, split_lines_append _ _ (instr_line_no_nl i)]
    rw [List.mapM_cons]
    rw [parse_ns_line_instr i hzi]
    have ihr := ih hzr
    unfold parse_ns at ihr
    rw [ihr]
    rfl

/-! pipeline glue -/

theorem compile_bare_zero (fuel : Nat) (p : Program) (st2 : CState)
    (h : compile fuel p = .ok st2) : bare_zero st2.instructions := by
  simp only [compile] at h
  obtain ⟨-, hc, -, -⟩ := compile_functions_step p.items _ _ h cinv_nil jumps_lt_nil
  exact hc.2.2

theorem run_pipeline_compile (s : String) (st : CState) (h : run_pipeline s = .ok st) :
    ∃ prog, compile (parse_fuel s.data) prog = .ok st := by
  simp only [run_pipeline, except_bind_ok] at h
  obtain ⟨prog, hp, h⟩ := h
  split at h
  · exact Except.noConfusion h
  · split at h
    · exact ⟨prog, h⟩
    · exact Except.noConfusion h

/-! ## C1: first-failure behaviour of check_program -/

/-- C1 (counterexample): in c1_src BOTH functions contain a type error
(the second, checked alone, fails and records its own message), yet
check_program returns false having recorded ONLY the first function
error: the loop stopped at the first failing function and never visited
the second, against "errors from later functions are also recorded". -/
theorem c1_counterexample_first_failure_stops :
    check_program (parse_fuel c1_src.data) c1_prog =
      some (false, ⟨[], ["Type error at 11:26: Type mismatch in let binding"]⟩) ∧
    (check_function c1_prog.items (parse_fuel c1_src.data) c1_fn2 ⟨[], []⟩).map
        (fun r => (r.1, r.2.errors)) =
      some (false, ["Type error at 40:55: Type mismatch in let binding"]) :=
  ⟨rfl, rfl⟩

/-- C1 (amended): the function loop stops at the FIRST failing function
(the result does not depend on the remaining functions, which are never
visited), and check_program reports failure iff any error was
recorded. -/
theorem c1_fail_iff_error_and_first_failure_stops :
    (∀ (fuel : Nat) (p : Program) (b : Bool) (st : TCState),
      check_program fuel p = some (b, st) → (b = false ↔ st.errors ≠ [])) ∧
    (∀ (prog : List FunctionDecl) (fuel : Nat) (f : FunctionDecl)
        (rest : List FunctionDecl) (st st1 : TCState),
      check_function prog fuel f st = some (false, st1) →
      check_functions prog fuel (f :: rest) st = some (false, st1)) := by
  refine ⟨check_program_iff, ?_⟩
  intro prog fuel f rest st st1 h
  simp [check_functions, h]

/-- Witness for C1: instantiated at c1_prog, whose run fails with a
recorded error, and at its failing first function, which short-circuits
the loop past the second function. -/
theorem c1_fail_iff_witness :
    c1_tcstate.errors ≠ [] ∧
    check_functions c1_prog.items (parse_fuel c1_src.data) (c1_fn :: [c1_fn2])
      ⟨[], []⟩ = some (false, c1_fn_state) := by
  constructor
  · exact (c1_fail_iff_error_and_first_failure_stops.1 (parse_fuel c1_src.data)
      c1_prog false c1_tcstate (by rfl)).mp rfl
  · exact c1_fail_iff_error_and_first_failure_stops.2 c1_prog.items
      (parse_fuel c1_src.data) c1_fn [c1_fn2] ⟨[], []⟩ c1_fn_state (by rfl)

/-! ## C3 and C8: mutable-borrow rules -/

/-- C3: a second mutable borrow of v right after a successful one (no
intervening scope exit) is rejected with "Variable already mutably
borrowed: v", and an assignment to v while its stored type carries the
MutRef sentinel is rejected with "Cannot use variable while mutably
borrowed: v" (before the right-hand side is even looked at). -/
theorem c3_double_borrow_and_borrowed_assignment_rejected :
    (∀ (prog : List FunctionDecl) (fuel fuel2 : Nat) (sp isp sp2 isp2 : Span)
        (v : String) (st : TCState) (t : Option NType) (st2 : TCState),
      check_fn prog (fuel + 2) (.expr (.borrow sp true (.ident isp v))) st =
          some (true, t, st2) →
      check_fn prog (fuel2 + 2) (.expr (.borrow sp2 true (.ident isp2 v))) st2 =
        some (false, none,
          tc_error ("Variable already mutably borrowed: " ++ v) sp2 st2)) ∧
    (∀ (prog : List FunctionDecl) (fuel : Nat) (sp isp : Span) (v : String)
        (rhs : Expr) (st : TCState) (info : VarInfo),
      lookup_variable v st = some info → info.ty.kind = .MutRef →
      check_fn prog (fuel + 1) (.expr (.binary sp .assignment (.ident isp v) rhs)) st =
        some (false, none,
          tc_error ("Cannot use variable while mutably borrowed: " ++ v) sp st)) := by
  constructor
  · intro prog fuel fuel2 sp isp sp2 isp2 v st t st2 h
    obtain ⟨hst2, hany, info, hl, hm, hk⟩ := mut_borrow_success prog fuel sp isp v st t st2 h
    subst hst2
    obtain ⟨info2, hl2, hk2, hm2⟩ := lookup_mark_self v sp st info hl
    exact mut_borrow_marked_rejected prog fuel2 sp2 isp2 v _ hany info2 hl2 (hm2.trans hm) hk2
  · intro prog fuel sp isp v rhs st info hl hk
    exact assignment_while_borrowed prog fuel sp isp v rhs st info hl hk

/-- Witness for C3 at a one-frame state holding a mutable v. -/
theorem c3_witness :
    check_fn [] 2 (.expr (.borrow ⟨3, 4⟩ true (.ident ⟨3, 4⟩ "v"))) c3w_res.2.2 =
      some (false, none,
        tc_error ("Variable already mutably borrowed: " ++ "v") ⟨3, 4⟩ c3w_res.2.2) ∧
    check_fn [] 1 (.expr (.binary ⟨5, 6⟩ .assignment (.ident ⟨5, 6⟩ "v")
        (.intLit ⟨7, 8⟩ 1))) c3w_res.2.2 =
      some (false, none,
        tc_error ("Cannot use variable while mutably borrowed: " ++ "v") ⟨5, 6⟩ c3w_res.2.2) := by
  constructor
  · exact c3_double_borrow_and_borrowed_assignment_rejected.1 [] 0 0 ⟨1, 2⟩ ⟨1, 2⟩
      ⟨3, 4⟩ ⟨3, 4⟩ "v" c3w_st c3w_res.2.1 c3w_res.2.2 (by rfl)
  · exact c3_double_borrow_and_borrowed_assignment_rejected.2 [] 0 ⟨5, 6⟩ ⟨5, 6⟩ "v"
      (.intLit ⟨7, 8⟩ 1) c3w_res.2.2 c3w_info (by rfl) (by rfl)

/-- C8 (amended): a successful `&mut v` of an identifier rewrites the
whole scope stack via mark_borrowed, so every frame containing v gets the
MutRef sentinel over a copy of the previous type; exit_scope pops only
the innermost frame; and the sentinel survives the pop — a v still
visible after exiting the borrow scope is still marked MutRef, hence
still rejected for assignment, NOT "again assignable" as claimed. -/
theorem c8_mut_borrow_marks_all_frames_and_survives_exit :
    (∀ (prog : List FunctionDecl) (fuel : Nat) (sp isp : Span) (v : String)
        (st : TCState) (t : Option NType) (st2 : TCState),
      check_fn prog (fuel + 2) (.expr (.borrow sp true (.ident isp v))) st =
          some (true, t, st2) →
      st2 = mark_borrowed v sp st) ∧
    (∀ st : TCState, exit_scope st = { st with scopes := st.scopes.tail }) ∧
    (∀ (v : String) (sp : Span) (st : TCState) (info : VarInfo),
      lookup_variable v (exit_scope (mark_borrowed v sp st)) = some info →
      info.ty.kind = .MutRef) ∧
    (∀ (prog : List FunctionDecl) (fuel : Nat) (sp2 isp : Span) (v : String)
        (rhs : Expr) (st3 : TCState) (info : VarInfo),
      lookup_variable v st3 = some info → info.ty.kind = .MutRef →
      check_fn prog (fuel + 1) (.expr (.binary sp2 .assignment (.ident isp v) rhs)) st3 =
        some (false, none,
          tc_error ("Cannot use variable while mutably borrowed: " ++ v) sp2 st3)) := by
  refine ⟨?_, ?_, ?_, ?_⟩
  · intro prog fuel sp isp v st t st2 h
    exact (mut_borrow_success prog fuel sp isp v st t st2 h).1
  · intro st
    rfl
  · exact lookup_after_exit_marked
  · intro prog fuel sp2 isp v rhs st3 info hl hk
    exact assignment_while_borrowed prog fuel sp2 isp v rhs st3 info hl hk

/-- C8 (counterexample to "again assignable once the borrow scope is
exited"): in c8_src, x is mutably borrowed inside an if-block; after the
block exits, the assignment `x = 1` to the enclosing x is still rejected
with "Cannot use variable while mutably borrowed". -/
theorem c8_counterexample_assignment_after_exit_rejected :
    check_program (parse_fuel c8_src.data) c8_prog =
      some (false, ⟨[],
        ["Type error at 69:74: Cannot use variable while mutably borrowed: x",
         "Type error at 69:74: Undefined variable: x"]⟩) := rfl

/-- Witness for C8 at a two-frame state holding v in both frames. -/
theorem c8_witness :
    c8w_st2 = mark_borrowed "v" ⟨1, 2⟩ c8w_st ∧
    (exit_scope c8w_st2).scopes = c8w_st2.scopes.tail ∧
    c8w_info.ty.kind = .MutRef ∧
    check_fn [] 1 (.expr (.binary ⟨3, 4⟩ .assignment (.ident ⟨3, 4⟩ "v")
        (.intLit ⟨5, 6⟩ 7))) (exit_scope (mark_borrowed "v" ⟨1, 2⟩ c8w_st)) =
      some (false, none,
        tc_error ("Cannot use variable while mutably borrowed: " ++ "v") ⟨3, 4⟩
          (exit_scope (mark_borrowed "v" ⟨1, 2⟩ c8w_st))) := by
  refine ⟨?_, ?_, ?_, ?_⟩
  · exact c8_mut_borrow_marks_all_frames_and_survives_exit.1 [] 0 ⟨1, 2⟩ ⟨1, 2⟩ "v"
      c8w_st c8w_ty c8w_st2 (by rfl)
  · exact congrArg TCState.scopes
      (c8_mut_borrow_marks_all_frames_and_survives_exit.2.1 c8w_st2)
  · exact c8_mut_borrow_marks_all_frames_and_survives_exit.2.2.1 "v" ⟨1, 2⟩ c8w_st
      c8w_info (by rfl)
  · exact c8_mut_borrow_marks_all_frames_and_survives_exit.2.2.2 [] 0 ⟨3, 4⟩ ⟨3, 4⟩ "v"
      (.intLit ⟨5, 6⟩ 7) (exit_scope (mark_borrowed "v" ⟨1, 2⟩ c8w_st)) c8w_info
      (by rfl) (by rfl)

/-! ## C7: assignment parsing -/

/-- C7: the assignment operator parses right-associatively
(`x = y = 5` gives Assign(x, Assign(y, 5))), parentheses around an
identifier target are transparent (`(x) = 20` parses with target x), and
any non-identifier target fails with "Invalid assignment target" — shown
on the three source examples and in general for every parse state whose
or-level left operand is not an identifier followed by `=`. -/
theorem c7_assignment_right_assoc_ident_target :
    parse_expr ("x = y = 5").data (parse_fuel ("x = y = 5").data)
        (skip_ws ("x = y = 5").data 0) =
      .ok (.binary ⟨0, 9⟩ .assignment (.ident ⟨0, 1⟩ "x")
        (.binary ⟨4, 9⟩ .assignment (.ident ⟨4, 5⟩ "y") (.intLit ⟨8, 9⟩ 5)), 9) ∧
    parse_expr ("(x) = 20").data (parse_fuel ("(x) = 20").data)
        (skip_ws ("(x) = 20").data 0) =
      .ok (.binary ⟨1, 8⟩ .assignment (.ident ⟨1, 2⟩ "x") (.intLit ⟨6, 8⟩ 20), 8) ∧
    parse_expr ("x + 1 = 10").data (parse_fuel ("x + 1 = 10").data)
        (skip_ws ("x + 1 = 10").data 0) = .error "Invalid assignment target" ∧
    (∀ (src : List Char) (fuel p : Nat) (e : Expr) (p1 : Nat),
      parse_fn src fuel (.orP p) = .ok (.exprR e p1) →
      (pmatch src p1 "=").1 = true →
      e.is_ident = false →
      parse_fn src (fuel + 1) (.assignmentP p) = .error "Invalid assignment target") :=
  ⟨rfl, rfl, rfl, assignment_non_ident_rejected⟩

/-- Witness for C7 on the source `1 = 2`. -/
theorem c7_witness :
    parse_fn c7w_src 31 (.assignmentP 0) = .error "Invalid assignment target" :=
  c7_assignment_right_assoc_ident_target.2.2.2 c7w_src 30 0 c7w_or.1 c7w_or.2
    (by rfl) (by rfl) (by rfl)

/-! ## C9: .ns / .no round trip -/

/-- C9: for every source whose pipeline run succeeds (parse, type check,
compile), reading the emitted .ns listing back — splitting lines, then
splitting each line on whitespace, matching the opcode table and reading
the decimal operand exactly when the opcode takes one — reproduces the
compiler instruction sequence exactly; re-encoding the read-back
sequence in the binary format therefore matches the .no byte stream
byte for byte. -/
theorem c9_ns_roundtrip_and_no_bytes :
    ∀ (s : String) (st : CState), run_pipeline s = .ok st →
      parse_ns (ns_output st.instructions) = some st.instructions ∧
      ∀ l, parse_ns (ns_output st.instructions) = some l →
        no_output l = no_output st.instructions := by
  intro s st h
  obtain ⟨prog, hc⟩ := run_pipeline_compile s st h
  have hz := compile_bare_zero _ _ _ hc
  have hmain := parse_ns_output st.instructions hz
  refine ⟨hmain, ?_⟩
  intro l hl
  rw [hmain, Option.some.injEq] at hl
  rw [hl]

/-- Witness for C9 at the c9w_src pipeline run. -/
theorem c9_witness :
    parse_ns (ns_output c9w_pipe.instructions) = some c9w_pipe.instructions ∧
    ∀ l, parse_ns (ns_output c9w_pipe.instructions) = some l →
      no_output l = no_output c9w_pipe.instructions :=
  c9_ns_roundtrip_and_no_bytes c9w_src c9w_pipe (by rfl)

end Nust
